import Mathlib

/-! # Memcached operator: one reconciliation pass

A shallow embedding of `operator/api/v1alpha1/memcached_types.go` and
`operator/internal/controller/memcached_controller.go`.

* Go structs become Lean structures with the Go field names.  An embedded
  struct (`metav1.ObjectMeta`) becomes a parent structure, so `m.Name` reads as
  in Go.
* A Go slice whose nil-ness is observable (`Status.Nodes`, the result of
  `getPodNames`, both compared with `reflect.DeepEqual`) is a `Slice`, which
  keeps the nil slice apart from a non-nil slice of length zero.
* `int32` values are `Int`; the controller only copies and compares them.
* The cluster store (`client.Client`) is a record of operations over a state
  type `σ`: reads are functions of the state, writes return the new state.
* `Reconcile` returns a `Pass`: the Go return values together with the
  sequence of store calls issued and the state the store is left in.
  Logging has no effect on any of these and is left out.
-/

namespace Operator

set_option linter.dupNamespace false

/-! ## Go values -/

/-- A Go slice: `nil` is the nil slice, `mk l` a non-nil slice holding `l`. -/
inductive Slice (α : Type) where
  | nil : Slice α
  | mk (elems : List α) : Slice α
deriving DecidableEq, Repr

/-- The elements of a slice; the nil slice has none. -/
def Slice.toList {α : Type} : Slice α → List α
  | Slice.nil => []
  | Slice.mk l => l

/-- Go's builtin `append(s, x)`: the result is never nil. -/
def Slice.append {α : Type} (s : Slice α) (x : α) : Slice α :=
  Slice.mk (s.toList ++ [x])

/-- Go's order on strings (`a <= b`): lexicographic on the characters. -/
def stringLE (a b : String) : Prop := a.toList ≤ b.toList

instance stringLE.decidable : DecidableRel stringLE :=
  fun a b => inferInstanceAs (Decidable (a.toList ≤ b.toList))

instance stringLE.isTotal : IsTotal String stringLE :=
  ⟨fun a b => le_total a.toList b.toList⟩

instance stringLE.isTrans : IsTrans String stringLE :=
  ⟨fun _ _ _ hab hbc => @le_trans (List Char) _ _ _ _ hab hbc⟩

/-- `sort.Strings(x)`: sorts in increasing order; a nil slice stays nil. -/
def sort.Strings : Slice String → Slice String
  | Slice.nil => Slice.nil
  | Slice.mk l => Slice.mk (l.insertionSort stringLE)

/-- `reflect.DeepEqual` on two `[]string`: both nil, or both non-nil with the
same length and equal elements.  A nil slice and an empty non-nil slice are
not deeply equal. -/
def reflect.DeepEqual (a b : Slice String) : Bool := decide (a = b)

/-! ## API errors (`k8s.io/apimachinery/pkg/api/errors`) -/

/-- An API error: its status reason and a message. -/
structure Error where
  Reason : String
  Message : String
deriving DecidableEq, Repr

/-- `errors.IsNotFound(err)`. -/
def IsNotFound (err : Error) : Bool := err.Reason == "NotFound"

/-- `client.IgnoreNotFound(err)` for a non-nil `err`: nil when `err` is a
not-found error, `err` itself otherwise. -/
def IgnoreNotFound (err : Error) : Option Error :=
  if IsNotFound err then none else some err

/-! ## API objects -/

/-- The model of `metav1.TypeMeta`. -/
structure TypeMeta where
  Kind : String := ""
  APIVersion : String := ""
deriving DecidableEq, Repr

/-- The model of `metav1.OwnerReference`. -/
structure OwnerReference where
  APIVersion : String
  Kind : String
  Name : String
  UID : String
  Controller : Option Bool
  BlockOwnerDeletion : Option Bool
deriving DecidableEq, Repr

/-- The model of `metav1.ObjectMeta`, with the fields the controller and the
store read or write.  `ResourceVersion` is the version token of optimistic
concurrency; it is opaque to the controller and kept as a counter. -/
structure ObjectMeta where
  Name : String := ""
  Namespace : String := ""
  UID : String := ""
  ResourceVersion : Nat := 0
  Labels : List (String × String) := []
  OwnerReferences : List OwnerReference := []
deriving DecidableEq, Repr

/-- The record `MemcachedSpec` (memcached_types.go). -/
structure MemcachedSpec where
  Size : Int
deriving DecidableEq, Repr

/-- The record `MemcachedStatus` (memcached_types.go). -/
structure MemcachedStatus where
  Nodes : Slice String := Slice.nil
deriving DecidableEq, Repr

/-- The resource `Memcached` (memcached_types.go). -/
structure Memcached extends TypeMeta, ObjectMeta where
  Spec : MemcachedSpec
  Status : MemcachedStatus := {}
deriving DecidableEq, Repr

/-- The model of `corev1.ContainerPort`. -/
structure ContainerPort where
  ContainerPort : Int
  Name : String
deriving DecidableEq, Repr

/-- The model of `corev1.Container`. -/
structure Container where
  Image : String
  Name : String
  Command : List String
  Ports : List ContainerPort
deriving DecidableEq, Repr

/-- The model of `corev1.PodSpec`. -/
structure PodSpec where
  Containers : List Container
deriving DecidableEq, Repr

/-- The model of `corev1.PodTemplateSpec`. -/
structure PodTemplateSpec extends ObjectMeta where
  Spec : PodSpec
deriving DecidableEq, Repr

/-- The model of `metav1.LabelSelector`. -/
structure LabelSelector where
  MatchLabels : List (String × String)
deriving DecidableEq, Repr

/-- The model of `appsv1.DeploymentSpec`; `Replicas` and `Selector` are
pointers. -/
structure DeploymentSpec where
  Replicas : Option Int
  Selector : Option LabelSelector
  Template : PodTemplateSpec
deriving DecidableEq, Repr

/-- The model of `appsv1.Deployment`. -/
structure Deployment extends TypeMeta, ObjectMeta where
  Spec : DeploymentSpec
deriving DecidableEq, Repr

/-- The model of `corev1.Pod`. -/
structure Pod extends TypeMeta, ObjectMeta where
deriving DecidableEq, Repr

/-- The model of `types.NamespacedName`. -/
structure NamespacedName where
  Namespace : String
  Name : String
deriving DecidableEq, Repr

/-- The model of `ctrl.Result`. -/
structure Result where
  Requeue : Bool := false
  RequeueAfter : Nat := 0
deriving DecidableEq, Repr

/-- The model of `schema.GroupVersionKind`. -/
structure GroupVersionKind where
  Group : String
  Version : String
  Kind : String
deriving DecidableEq, Repr

/-- The model of `runtime.Scheme`, as far as the controller depends on it:
the outcome of looking up the registered kind of the `Memcached` type. -/
structure Scheme where
  memcachedKind : Except Error GroupVersionKind

/-! ## The store capability -/

/-- The model of `client.Client`, restricted to the calls `Reconcile` makes.
`Get` is split by the type of the object it fills in. -/
structure Client (σ : Type) where
  GetMemcached : σ → NamespacedName → Except Error Memcached
  GetDeployment : σ → NamespacedName → Except Error Deployment
  List : σ → String → List (String × String) → Except Error (List Pod)
  Create : σ → Deployment → Option Error × σ
  Update : σ → Deployment → Option Error × σ
  StatusUpdate : σ → Memcached → Option Error × σ

/-- The record `MemcachedReconciler`: the embedded client and the scheme. -/
structure MemcachedReconciler (σ : Type) extends Client σ where
  Scheme : Scheme

/-- One store call, with its arguments. -/
inductive Call where
  | getMemcached (key : NamespacedName)
  | getDeployment (key : NamespacedName)
  | list (ns : String) (labels : List (String × String))
  | create (dep : Deployment)
  | update (dep : Deployment)
  | statusUpdate (m : Memcached)
deriving DecidableEq, Repr

/-- The mutating calls: create, update and status update. -/
def Call.isMutating : Call → Bool
  | Call.create _ => true
  | Call.update _ => true
  | Call.statusUpdate _ => true
  | _ => false

/-- What one call of `Reconcile` leaves behind: the returned pair, the store
calls in the order issued, and the resulting store state. -/
structure Pass (σ : Type) where
  result : Result
  err : Option Error
  calls : List Call
  store : σ
deriving DecidableEq

/-! ## The controller -/

/-- The Go function `labelsForMemcached`. -/
def labelsForMemcached (name : String) : List (String × String) :=
  [("app", "memcached"), ("memcached_cr", name)]

/-- The Go function `getPodNames`: starts from the nil slice and appends each
pod name in turn. -/
def getPodNames (pods : List Pod) : Slice String :=
  pods.foldl (fun podNames pod => podNames.append pod.Name) Slice.nil

/-- Modelled from the spec: `ctrl.SetControllerReference` is library code
outside the sources.  The spec has the builder "attach the ownership link",
failing "only if the ownership link cannot be attached (e.g., scheme/type
mismatch in the owning platform)".  The kind of the owner is looked up in the
scheme; on success the controller reference to the owner is stamped on the
object and nothing else changes.  The library's further checks (owner and
object in one namespace, object not yet controlled by another owner) cannot
fire on the freshly built object of `deploymentForMemcached`. -/
def SetControllerReference (owner : Memcached) (object : Deployment) (scheme : Scheme) :
    Except Error Deployment :=
  match scheme.memcachedKind with
  | Except.error err => Except.error err
  | Except.ok gvk =>
    let ref : OwnerReference :=
      { APIVersion := gvk.Group ++ "/" ++ gvk.Version
        Kind := gvk.Kind
        Name := owner.Name
        UID := owner.UID
        Controller := some true
        BlockOwnerDeletion := some true }
    Except.ok { object with OwnerReferences := object.OwnerReferences ++ [ref] }

/-- The composite literal of `deploymentForMemcached`: the `Deployment` it
builds before the owner reference is set. -/
def deploymentForMemcached.dep (m : Memcached) : Deployment :=
  let ls := labelsForMemcached m.Name
  let replicas := m.Spec.Size
  { Name := m.Name
    Namespace := m.Namespace
    Spec :=
      { Replicas := some replicas
        Selector := some { MatchLabels := ls }
        Template :=
          { Labels := ls
            Spec :=
              { Containers :=
                  [{ Image := "memcached:1.6.39-alpine"
                     Name := "memcached"
                     Command := ["memcached", "--memory-limit=64", "-o", "modern", "-v"]
                     Ports := [{ ContainerPort := 11211, Name := "memcached" }] }] } } } }

/-- The Go method `deploymentForMemcached`. -/
def deploymentForMemcached {σ : Type} (r : MemcachedReconciler σ) (m : Memcached) :
    Except Error Deployment :=
  let dep := deploymentForMemcached.dep m
  match SetControllerReference m dep r.Scheme with
  | Except.error err => Except.error err
  | Except.ok dep => Except.ok dep

/-- The Go method `Reconcile`. -/
def Reconcile {σ : Type} (r : MemcachedReconciler σ) (req : NamespacedName) (s : σ) : Pass σ :=
  -- step 1: fetch the Memcached instance
  match r.GetMemcached s req with
  | Except.error err => ⟨{}, IgnoreNotFound err, [Call.getMemcached req], s⟩
  | Except.ok memcached =>
    -- step 2: fetch the Deployment of the same name
    let key : NamespacedName := { Name := memcached.Name, Namespace := memcached.Namespace }
    let reads := [Call.getMemcached req, Call.getDeployment key]
    match r.GetDeployment s key with
    | Except.error err =>
      if IsNotFound err then
        match deploymentForMemcached r memcached with
        | Except.error err => ⟨{}, some err, reads, s⟩
        | Except.ok dep =>
          match r.Create s dep with
          | (some err, s') => ⟨{}, some err, reads ++ [Call.create dep], s'⟩
          | (none, s') => ⟨{}, none, reads ++ [Call.create dep], s'⟩
      else
        ⟨{}, some err, reads, s⟩
    | Except.ok found =>
      -- step 3: correct the replica count
      let size := memcached.Spec.Size
      if found.Spec.Replicas = none ∨ found.Spec.Replicas ≠ some size then
        let found : Deployment := { found with Spec := { found.Spec with Replicas := some size } }
        match r.Update s found with
        | (some err, s') => ⟨{}, some err, reads ++ [Call.update found], s'⟩
        | (none, s') => ⟨{}, none, reads ++ [Call.update found], s'⟩
      else
        -- step 4: refresh the status
        let ns := memcached.Namespace
        let labels := labelsForMemcached memcached.Name
        let reads := reads ++ [Call.list ns labels]
        match r.List s ns labels with
        | Except.error err => ⟨{}, some err, reads, s⟩
        | Except.ok podList =>
          let podNames := getPodNames podList
          let podNames := sort.Strings podNames
          let memcached : Memcached :=
            { memcached with Status := { memcached.Status with Nodes := sort.Strings memcached.Status.Nodes } }
          if !reflect.DeepEqual podNames memcached.Status.Nodes then
            let memcached : Memcached :=
              { memcached with Status := { memcached.Status with Nodes := podNames } }
            match r.StatusUpdate s memcached with
            | (some err, s') => ⟨{}, some err, reads ++ [Call.statusUpdate memcached], s'⟩
            | (none, s') => ⟨{}, none, reads ++ [Call.statusUpdate memcached], s'⟩
          else
            ⟨{}, none, reads, s⟩

/-! ## An in-memory cluster store -/

/-- Modelled from the spec: the external cluster state store is not part of
the sources.  The spec names its capability set (get, list, create, update,
status-update), has writes "guarded by optimistic concurrency (a version token
read with the object and checked on write)", and lists members "matching the
builder's label selector within the resource's namespace".  The store holds
the objects of the three kinds the controller touches. -/
structure Cluster where
  Memcacheds : List Memcached := []
  Deployments : List Deployment := []
  Pods : List Pod := []
deriving DecidableEq, Repr

/-- The error of a lookup that finds nothing. -/
def errNotFound (name : String) : Error := { Reason := "NotFound", Message := name }

/-- The error of a create on a name already taken. -/
def errAlreadyExists (name : String) : Error := { Reason := "AlreadyExists", Message := name }

/-- The error of a write whose version token is stale. -/
def errConflict (name : String) : Error := { Reason := "Conflict", Message := name }

/-- Whether object metadata carries the given namespace and name. -/
def hasKey (key : NamespacedName) (ns name : String) : Bool :=
  ns == key.Namespace && name == key.Name

/-- Whether a label map contains every pair of a selector. -/
def matchesLabels (selector labels : List (String × String)) : Bool :=
  selector.all (fun kv => labels.lookup kv.1 == some kv.2)

/-- Fetch a `Memcached` by namespace and name. -/
def Cluster.GetMemcached (c : Cluster) (key : NamespacedName) : Except Error Memcached :=
  match c.Memcacheds.find? (fun m => hasKey key m.Namespace m.Name) with
  | some m => Except.ok m
  | none => Except.error (errNotFound key.Name)

/-- Fetch a `Deployment` by namespace and name. -/
def Cluster.GetDeployment (c : Cluster) (key : NamespacedName) : Except Error Deployment :=
  match c.Deployments.find? (fun d => hasKey key d.Namespace d.Name) with
  | some d => Except.ok d
  | none => Except.error (errNotFound key.Name)

/-- The pods of a namespace that carry all the given labels. -/
def Cluster.ListPods (c : Cluster) (ns : String) (labels : List (String × String)) :
    Except Error (List Pod) :=
  Except.ok (c.Pods.filter (fun p => p.Namespace == ns && matchesLabels labels p.Labels))

/-- Store a new `Deployment`; the name must be free.  The stored object gets
a fresh version token. -/
def Cluster.Create (c : Cluster) (dep : Deployment) : Option Error × Cluster :=
  match c.Deployments.find? (fun d => hasKey ⟨dep.Namespace, dep.Name⟩ d.Namespace d.Name) with
  | some _ => (some (errAlreadyExists dep.Name), c)
  | none =>
    (none, { c with Deployments :=
      c.Deployments ++ [{ dep with ResourceVersion := dep.ResourceVersion + 1 }] })

/-- Replace a stored `Deployment`; the object must exist and the version token
passed must be the stored one. -/
def Cluster.Update (c : Cluster) (dep : Deployment) : Option Error × Cluster :=
  match c.Deployments.find? (fun d => hasKey ⟨dep.Namespace, dep.Name⟩ d.Namespace d.Name) with
  | none => (some (errNotFound dep.Name), c)
  | some old =>
    if old.ResourceVersion ≠ dep.ResourceVersion then (some (errConflict dep.Name), c)
    else
      (none, { c with Deployments := c.Deployments.map (fun d =>
        if hasKey ⟨dep.Namespace, dep.Name⟩ d.Namespace d.Name then
          { dep with ResourceVersion := dep.ResourceVersion + 1 }
        else d) })

/-- Replace the status of a stored `Memcached`, leaving its spec and identity
as stored; the object must exist and the version token passed must be the
stored one. -/
def Cluster.StatusUpdate (c : Cluster) (m : Memcached) : Option Error × Cluster :=
  match c.Memcacheds.find? (fun x => hasKey ⟨m.Namespace, m.Name⟩ x.Namespace x.Name) with
  | none => (some (errNotFound m.Name), c)
  | some old =>
    if old.ResourceVersion ≠ m.ResourceVersion then (some (errConflict m.Name), c)
    else
      (none, { c with Memcacheds := c.Memcacheds.map (fun x =>
        if hasKey ⟨m.Namespace, m.Name⟩ x.Namespace x.Name then
          { x with Status := m.Status, ResourceVersion := x.ResourceVersion + 1 }
        else x) })

/-- The in-memory store as a client. -/
def Cluster.client : Client Cluster :=
  { GetMemcached := Cluster.GetMemcached
    GetDeployment := Cluster.GetDeployment
    List := Cluster.ListPods
    Create := Cluster.Create
    Update := Cluster.Update
    StatusUpdate := Cluster.StatusUpdate }

/-- A scheme in which the `Memcached` kind is registered. -/
def registeredScheme : Scheme :=
  { memcachedKind := Except.ok { Group := "cache.example.com", Version := "v1alpha1", Kind := "Memcached" } }

/-- A scheme in which the `Memcached` kind is missing. -/
def emptyScheme : Scheme :=
  { memcachedKind := Except.error { Reason := "NotRegistered", Message := "no kind is registered for the type Memcached" } }

/-- The reconciler over the in-memory store. -/
def clusterReconciler (scheme : Scheme) : MemcachedReconciler Cluster :=
  { toClient := Cluster.client, Scheme := scheme }

/-! ## What the engine may rely on from any store -/

/-- Modelled from the spec: the external cluster state store is not part of
the sources, and any store may be injected behind the capability set.  These
are the guarantees of a store call that succeeded, for the reads that follow
it with no other writer in between: an object is fetched under its own
namespace and name; a created or updated `Deployment` is what the next fetch
under its name returns, with the `Replicas` written, and the `Memcached`
objects are as before; after a status update the `Deployment` objects and the
pods are as before, and the next fetch of the `Memcached` returns the stored
identity and spec with the status written.  Nothing is said of a call that
fails. -/
structure LawfulStore {σ : Type} (c : Client σ) : Prop where
  getMemcached_key : ∀ s key m, c.GetMemcached s key = Except.ok m →
    m.Namespace = key.Namespace ∧ m.Name = key.Name
  getDeployment_key : ∀ s key d, c.GetDeployment s key = Except.ok d →
    d.Namespace = key.Namespace ∧ d.Name = key.Name
  create_ok : ∀ s dep, (c.Create s dep).1 = none →
    (∀ key, c.GetMemcached (c.Create s dep).2 key = c.GetMemcached s key) ∧
      ∃ d, c.GetDeployment (c.Create s dep).2 ⟨dep.Namespace, dep.Name⟩ = Except.ok d ∧
        d.Spec.Replicas = dep.Spec.Replicas
  update_ok : ∀ s dep, (c.Update s dep).1 = none →
    (∀ key, c.GetMemcached (c.Update s dep).2 key = c.GetMemcached s key) ∧
      ∃ d, c.GetDeployment (c.Update s dep).2 ⟨dep.Namespace, dep.Name⟩ = Except.ok d ∧
        d.Spec.Replicas = dep.Spec.Replicas
  statusUpdate_ok : ∀ s w old, (c.StatusUpdate s w).1 = none →
    c.GetMemcached s ⟨w.Namespace, w.Name⟩ = Except.ok old →
    (∀ key, c.GetDeployment (c.StatusUpdate s w).2 key = c.GetDeployment s key) ∧
      (∀ ns labels, c.List (c.StatusUpdate s w).2 ns labels = c.List s ns labels) ∧
      ∃ m, c.GetMemcached (c.StatusUpdate s w).2 ⟨w.Namespace, w.Name⟩ = Except.ok m ∧
        m.Namespace = old.Namespace ∧ m.Name = old.Name ∧ m.Spec = old.Spec ∧
        m.Status = w.Status

/-- Modelled from the spec: a store whose writes can fail (the spec's
transient store error and version conflict).  It is the in-memory store with
a fault: while the fault is set, every write fails with it and leaves the
store as it is; reads are not affected. -/
structure Flaky where
  cluster : Cluster := {}
  writeFault : Option Error := none
deriving DecidableEq, Repr

/-- A write on the flaky store: refused while the fault is set, passed on to
the in-memory store otherwise. -/
def Flaky.write (f : Flaky) (op : Cluster → Option Error × Cluster) : Option Error × Flaky :=
  match f.writeFault with
  | some err => (some err, f)
  | none => ((op f.cluster).1, { f with cluster := (op f.cluster).2 })

/-- The flaky store as a client. -/
def Flaky.client : Client Flaky :=
  { GetMemcached := fun f key => f.cluster.GetMemcached key
    GetDeployment := fun f key => f.cluster.GetDeployment key
    List := fun f ns labels => f.cluster.ListPods ns labels
    Create := fun f dep => f.write (fun c => c.Create dep)
    Update := fun f dep => f.write (fun c => c.Update dep)
    StatusUpdate := fun f m => f.write (fun c => c.StatusUpdate m) }

/-- The reconciler over the flaky store. -/
def flakyReconciler (scheme : Scheme) : MemcachedReconciler Flaky :=
  { toClient := Flaky.client, Scheme := scheme }

/-! ## Sample objects -/

/-- The identity `default/sample`. -/
def sampleKey : NamespacedName := { Namespace := "default", Name := "sample" }

/-- A `Memcached` named `default/sample` of the given size and status. -/
def sampleMemcached (size : Int) (nodes : Slice String) : Memcached :=
  { Name := "sample", Namespace := "default", UID := "uid-1", ResourceVersion := 7
    Spec := { Size := size }, Status := { Nodes := nodes } }

/-- A `Deployment` named `default/sample` with the given replica count. -/
def sampleDeployment (replicas : Option Int) : Deployment :=
  { Name := "sample", Namespace := "default", UID := "uid-2", ResourceVersion := 4
    Spec :=
      { Replicas := replicas
        Selector := some { MatchLabels := labelsForMemcached "sample" }
        Template := { Labels := labelsForMemcached "sample", Spec := { Containers := [] } } } }

/-- The `Deployment` the builder is expected to produce for
`sampleMemcached size _` under `registeredScheme`. -/
def sampleBuilt (size : Int) : Deployment :=
  { Name := "sample", Namespace := "default"
    OwnerReferences :=
      [{ APIVersion := "cache.example.com/v1alpha1", Kind := "Memcached", Name := "sample"
         UID := "uid-1", Controller := some true, BlockOwnerDeletion := some true }]
    Spec :=
      { Replicas := some size
        Selector := some { MatchLabels := [("app", "memcached"), ("memcached_cr", "sample")] }
        Template :=
          { Labels := [("app", "memcached"), ("memcached_cr", "sample")]
            Spec :=
              { Containers :=
                  [{ Image := "memcached:1.6.39-alpine"
                     Name := "memcached"
                     Command := ["memcached", "--memory-limit=64", "-o", "modern", "-v"]
                     Ports := [{ ContainerPort := 11211, Name := "memcached" }] }] } } } }

/-- A pod of `default/sample` with the given name. -/
def samplePod (name : String) : Pod :=
  { Name := name, Namespace := "default", Labels := labelsForMemcached "sample" }

/-- The store after `n` consecutive passes for one identity, with nothing
else touching the store in between. -/
def storeAfter {σ : Type} (r : MemcachedReconciler σ) (req : NamespacedName) : Nat → σ → σ
  | 0, s => s
  | n + 1, s => storeAfter r req n (Reconcile r req s).store

/-- A cluster in which `default/sample` is at its desired size, two pods are
running, and the stored status lists them in the order b, a. -/
def permutedCluster : Cluster :=
  { Memcacheds := [sampleMemcached 3 (Slice.mk ["b", "a"])]
    Deployments := [sampleDeployment (some 3)]
    Pods := [samplePod "a", samplePod "b"] }

/-- A cluster in which `default/sample` asks for three replicas, its
`Deployment` has two, one pod is running and no status is stored yet. -/
def driftCluster : Cluster :=
  { Memcacheds := [sampleMemcached 3 Slice.nil]
    Deployments := [sampleDeployment (some 2)]
    Pods := [samplePod "a"] }

end Operator

/-! # Theorems -/

namespace Operator

/-! ## The branches of `Reconcile` -/

/-- C1: when the initial fetch of the `Memcached` reports not-found, the pass
returns the empty result and no error, its only call is that fetch, and the
store is left as it was. -/
theorem Reconcile_primary_absent {σ : Type} (r : MemcachedReconciler σ) (req : NamespacedName)
    (s : σ) (err : Error) (hget : r.GetMemcached s req = Except.error err)
    (hnf : IsNotFound err = true) :
    Reconcile r req s =
      { result := {}, err := none, calls := [Call.getMemcached req], store := s } := by
  simp [Reconcile, hget, IgnoreNotFound, hnf]

/-- Witness of C1: reconciling `default/sample` on the empty cluster. -/
theorem Reconcile_primary_absent_witness :
    IsNotFound (errNotFound "sample") = true ∧
      Reconcile (clusterReconciler registeredScheme) sampleKey {} =
        { result := {}, err := none, calls := [Call.getMemcached sampleKey], store := {} } :=
  ⟨by decide,
    Reconcile_primary_absent (clusterReconciler registeredScheme) sampleKey {}
      (errNotFound "sample") rfl (by decide)⟩

/-- A successful build keeps the identity and size of the resource and carries
a controller reference to it. -/
theorem deploymentForMemcached_ok {σ : Type} (r : MemcachedReconciler σ) (m : Memcached)
    (dep : Deployment) (hbuild : deploymentForMemcached r m = Except.ok dep) :
    dep.Name = m.Name ∧ dep.Namespace = m.Namespace ∧ dep.Spec = (deploymentForMemcached.dep m).Spec ∧
      ∃ ref ∈ dep.OwnerReferences,
        ref.Name = m.Name ∧ ref.UID = m.UID ∧ ref.Controller = some true := by
  unfold deploymentForMemcached SetControllerReference at hbuild
  cases hk : r.Scheme.memcachedKind with
  | error e => simp [hk] at hbuild
  | ok gvk =>
    simp only [hk] at hbuild
    injection hbuild with hbuild
    subst hbuild
    simp [deploymentForMemcached.dep]

/-- C2: when the `Memcached` exists, the fetch of its `Deployment` reports
not-found and the builder succeeds, the pass issues the two fetches and then
exactly one create, and nothing else; the created `Deployment` has the name
and namespace of the `Memcached`, `Replicas` set to `Spec.Size`, and a
controller reference to the `Memcached`; the pass returns what the create
returns, so no error when the create succeeds. -/
theorem Reconcile_child_absent_creates {σ : Type} (r : MemcachedReconciler σ)
    (req : NamespacedName) (s : σ) (m : Memcached) (err : Error) (dep : Deployment)
    (hget : r.GetMemcached s req = Except.ok m)
    (hdep : r.GetDeployment s { Namespace := m.Namespace, Name := m.Name } = Except.error err)
    (hnf : IsNotFound err = true)
    (hbuild : deploymentForMemcached r m = Except.ok dep) :
    (Reconcile r req s).calls =
        [Call.getMemcached req, Call.getDeployment { Namespace := m.Namespace, Name := m.Name },
          Call.create dep] ∧
      (Reconcile r req s).calls.filter Call.isMutating = [Call.create dep] ∧
      dep.Name = m.Name ∧ dep.Namespace = m.Namespace ∧
      dep.Spec.Replicas = some m.Spec.Size ∧
      (∃ ref ∈ dep.OwnerReferences,
        ref.Name = m.Name ∧ ref.UID = m.UID ∧ ref.Controller = some true) ∧
      (Reconcile r req s).result = {} ∧
      (Reconcile r req s).err = (r.Create s dep).1 ∧
      (Reconcile r req s).store = (r.Create s dep).2 := by
  obtain ⟨h1, h2, h3, h4⟩ := deploymentForMemcached_ok r m dep hbuild
  have h5 : dep.Spec.Replicas = some m.Spec.Size := by
    rw [h3]; rfl
  rcases hc : r.Create s dep with ⟨_ | e, s'⟩ <;>
    simp [Reconcile, hget, hdep, hnf, hbuild, hc, Call.isMutating, h1, h2, h5, h4]

/-- Witness of C2: `Spec.Size = 3` and no `Deployment` give one create with
`Replicas = 3`. -/
theorem Reconcile_child_absent_creates_witness :
    (Reconcile (clusterReconciler registeredScheme) sampleKey
        { Memcacheds := [sampleMemcached 3 Slice.nil] }).calls =
        [Call.getMemcached sampleKey, Call.getDeployment sampleKey, Call.create (sampleBuilt 3)] ∧
      (sampleBuilt 3).Spec.Replicas = some 3 ∧
      (Reconcile (clusterReconciler registeredScheme) sampleKey
        { Memcacheds := [sampleMemcached 3 Slice.nil] }).err = none :=
  have h := Reconcile_child_absent_creates (clusterReconciler registeredScheme) sampleKey
    { Memcacheds := [sampleMemcached 3 Slice.nil] } (sampleMemcached 3 Slice.nil)
    (errNotFound "sample") (sampleBuilt 3) rfl rfl (by decide) rfl
  ⟨h.1, h.2.2.2.2.1, h.2.2.2.2.2.2.2.1.trans (by decide)⟩

/-- C3: when the `Deployment` exists with `Replicas` other than `Spec.Size`,
the pass issues the two fetches and then exactly one update, and nothing
else; the object passed to the update has `Replicas` set to `Spec.Size` and
agrees with the fetched `Deployment` in type and object metadata (name,
namespace, version token, owner references), selector and pod template. -/
theorem Reconcile_replicas_drift_updates {σ : Type} (r : MemcachedReconciler σ)
    (req : NamespacedName) (s : σ) (m : Memcached) (found : Deployment)
    (hget : r.GetMemcached s req = Except.ok m)
    (hdep : r.GetDeployment s { Namespace := m.Namespace, Name := m.Name } = Except.ok found)
    (hne : found.Spec.Replicas ≠ some m.Spec.Size) :
    ∃ dep : Deployment,
      (Reconcile r req s).calls =
          [Call.getMemcached req, Call.getDeployment { Namespace := m.Namespace, Name := m.Name },
            Call.update dep] ∧
        (Reconcile r req s).calls.filter Call.isMutating = [Call.update dep] ∧
        dep.Spec.Replicas = some m.Spec.Size ∧
        dep.toTypeMeta = found.toTypeMeta ∧
        dep.toObjectMeta = found.toObjectMeta ∧
        dep.Spec.Selector = found.Spec.Selector ∧
        dep.Spec.Template = found.Spec.Template ∧
        (Reconcile r req s).result = {} ∧
        (Reconcile r req s).err = (r.Update s dep).1 ∧
        (Reconcile r req s).store = (r.Update s dep).2 := by
  refine ⟨{ found with Spec := { found.Spec with Replicas := some m.Spec.Size } }, ?_⟩
  rcases hu : r.Update s { found with Spec := { found.Spec with Replicas := some m.Spec.Size } }
    with ⟨_ | e, s'⟩ <;>
    simp [Reconcile, hget, hdep, hne, hu, Call.isMutating]

/-- Witness of C3: `Replicas = 2` against `Spec.Size = 3` gives one update
setting `Replicas = 3`, and the stored `Memcached`, status included, is as
before. -/
theorem Reconcile_replicas_drift_updates_witness :
    (sampleDeployment (some 2)).Spec.Replicas ≠ some (sampleMemcached 3 Slice.nil).Spec.Size ∧
      (∃ dep : Deployment,
        (Reconcile (clusterReconciler registeredScheme) sampleKey
            { Memcacheds := [sampleMemcached 3 Slice.nil]
              Deployments := [sampleDeployment (some 2)] }).calls =
          [Call.getMemcached sampleKey, Call.getDeployment sampleKey, Call.update dep] ∧
        dep.Spec.Replicas = some 3) ∧
      (Reconcile (clusterReconciler registeredScheme) sampleKey
          { Memcacheds := [sampleMemcached 3 Slice.nil]
            Deployments := [sampleDeployment (some 2)] }).store.Memcacheds =
        [sampleMemcached 3 Slice.nil] :=
  ⟨by decide,
    (Reconcile_replicas_drift_updates (clusterReconciler registeredScheme) sampleKey
      { Memcacheds := [sampleMemcached 3 Slice.nil], Deployments := [sampleDeployment (some 2)] }
      (sampleMemcached 3 Slice.nil) (sampleDeployment (some 2)) rfl rfl (by decide)).imp
      (fun _ h => ⟨h.1, h.2.2.1⟩),
    by decide⟩

/-- The status step: with the `Deployment` at the desired size and the pod
list fetched, the pass compares the two sorted slices with
`reflect.DeepEqual`, and issues a status update carrying the sorted pod names
exactly when they are not deeply equal. -/
theorem Reconcile_status_step {σ : Type} (r : MemcachedReconciler σ)
    (req : NamespacedName) (s : σ) (m : Memcached) (found : Deployment) (pods : List Pod)
    (hget : r.GetMemcached s req = Except.ok m)
    (hdep : r.GetDeployment s { Namespace := m.Namespace, Name := m.Name } = Except.ok found)
    (heq : found.Spec.Replicas = some m.Spec.Size)
    (hlist : r.List s m.Namespace (labelsForMemcached m.Name) = Except.ok pods) :
    Reconcile r req s =
      if reflect.DeepEqual (sort.Strings (getPodNames pods)) (sort.Strings m.Status.Nodes) then
        { result := {}, err := none
          calls := [Call.getMemcached req,
            Call.getDeployment { Namespace := m.Namespace, Name := m.Name },
            Call.list m.Namespace (labelsForMemcached m.Name)]
          store := s }
      else
        { result := {}
          err := (r.StatusUpdate s
            { m with Status := { Nodes := sort.Strings (getPodNames pods) } }).1
          calls := [Call.getMemcached req,
            Call.getDeployment { Namespace := m.Namespace, Name := m.Name },
            Call.list m.Namespace (labelsForMemcached m.Name),
            Call.statusUpdate { m with Status := { Nodes := sort.Strings (getPodNames pods) } }]
          store := (r.StatusUpdate s
            { m with Status := { Nodes := sort.Strings (getPodNames pods) } }).2 } := by
  rcases hu : r.StatusUpdate s { m with Status := { Nodes := sort.Strings (getPodNames pods) } }
    with ⟨_ | e, s'⟩ <;>
    by_cases hde : reflect.DeepEqual (sort.Strings (getPodNames pods))
      (sort.Strings m.Status.Nodes) = true <;>
    simp [Reconcile, hget, hdep, heq, hlist, hu, hde]

/-- A pass that finds the `Deployment` at the desired size and the stored
status equal, once sorted, to the sorted pod names issues the three reads
only and leaves the store as it was. -/
theorem Reconcile_of_settled {σ : Type} (r : MemcachedReconciler σ)
    (req : NamespacedName) (s : σ) (m : Memcached) (found : Deployment) (pods : List Pod)
    (hget : r.GetMemcached s req = Except.ok m)
    (hdep : r.GetDeployment s { Namespace := m.Namespace, Name := m.Name } = Except.ok found)
    (heq : found.Spec.Replicas = some m.Spec.Size)
    (hlist : r.List s m.Namespace (labelsForMemcached m.Name) = Except.ok pods)
    (hsame : sort.Strings m.Status.Nodes = sort.Strings (getPodNames pods)) :
    Reconcile r req s =
      { result := {}, err := none
        calls := [Call.getMemcached req,
          Call.getDeployment { Namespace := m.Namespace, Name := m.Name },
          Call.list m.Namespace (labelsForMemcached m.Name)]
        store := s } := by
  rw [Reconcile_status_step r req s m found pods hget hdep heq hlist, if_pos]
  simp [reflect.DeepEqual, hsame]

/-! ## The status comparison -/

/-- The elements of `append(s, x)`. -/
theorem Slice.toList_append {α : Type} (s : Slice α) (x : α) :
    (s.append x).toList = s.toList ++ [x] :=
  rfl

/-- The names collected by `getPodNames`, started from any slice. -/
theorem getPodNames_foldl (pods : List Pod) (acc : Slice String) :
    (pods.foldl (fun podNames pod => podNames.append pod.Name) acc).toList =
      acc.toList ++ pods.map (fun pod => pod.Name) := by
  induction pods generalizing acc with
  | nil => simp
  | cons p ps ih =>
    rw [List.foldl_cons, ih, Slice.toList_append, List.map_cons, List.append_assoc]
    rfl

/-- The slice built by `getPodNames` holds the pod names in list order. -/
theorem getPodNames_toList (pods : List Pod) :
    (getPodNames pods).toList = pods.map (fun pod => pod.Name) := by
  rw [getPodNames, getPodNames_foldl]
  rfl

/-- The slice built by `getPodNames` is nil exactly when there is no pod. -/
theorem getPodNames_eq_nil_iff (pods : List Pod) : getPodNames pods = Slice.nil ↔ pods = [] := by
  cases pods with
  | nil => simp [getPodNames]
  | cons p ps =>
    have h := getPodNames_toList (p :: ps)
    constructor
    · intro hn
      rw [hn] at h
      simp [Slice.toList] at h
    · intro hn
      cases hn

/-- The order `stringLE` is total. -/
theorem stringLE_total (a b : String) : stringLE a b ∨ stringLE b a :=
  le_total a.toList b.toList

/-- The order `stringLE` is transitive. -/
theorem stringLE_trans (a b c : String) (hab : stringLE a b) (hbc : stringLE b c) :
    stringLE a c :=
  @le_trans (List Char) _ _ _ _ hab hbc

/-- The elements of a slice after `sort.Strings`: sorted, and a permutation
of the elements before. -/
theorem sort_Strings_toList (x : Slice String) :
    (sort.Strings x).toList.Sorted stringLE ∧ (sort.Strings x).toList.Perm x.toList := by
  cases x with
  | nil => simp [sort.Strings, Slice.toList]
  | mk l =>
    exact ⟨List.sorted_insertionSort stringLE l, List.perm_insertionSort stringLE l⟩

/-- A slice is nil after `sort.Strings` exactly when it was nil before. -/
theorem sort_Strings_eq_nil_iff (x : Slice String) : sort.Strings x = Slice.nil ↔ x = Slice.nil := by
  cases x <;> simp [sort.Strings]

/-- C4: with no pod observed and a stored status that is a non-nil empty
slice, the two sorted sequences are equal element by element (both have no
element), and the pass still issues a status update, which writes the nil
slice. -/
theorem Reconcile_empty_status_spurious_update :
    (sort.Strings (getPodNames [])).toList = (sort.Strings (Slice.mk [])).toList ∧
      (Reconcile (clusterReconciler registeredScheme) sampleKey
          { Memcacheds := [sampleMemcached 3 (Slice.mk [])]
            Deployments := [sampleDeployment (some 3)]
            Pods := [] }).calls =
        [Call.getMemcached sampleKey, Call.getDeployment sampleKey,
          Call.list "default" (labelsForMemcached "sample"),
          Call.statusUpdate (sampleMemcached 3 Slice.nil)] := by
  decide

/-- What the status step does decide: the status update fires exactly when
the sorted sequences differ in some element or length, or when no pod is
observed while the stored status is a non-nil empty slice. -/
theorem Reconcile_status_update_iff {σ : Type} (r : MemcachedReconciler σ)
    (req : NamespacedName) (s : σ) (m : Memcached) (found : Deployment) (pods : List Pod)
    (hget : r.GetMemcached s req = Except.ok m)
    (hdep : r.GetDeployment s { Namespace := m.Namespace, Name := m.Name } = Except.ok found)
    (heq : found.Spec.Replicas = some m.Spec.Size)
    (hlist : r.List s m.Namespace (labelsForMemcached m.Name) = Except.ok pods) :
    ((Reconcile r req s).calls.filter Call.isMutating ≠ []) ↔
      ((sort.Strings (getPodNames pods)).toList ≠ (sort.Strings m.Status.Nodes).toList ∨
        (pods = [] ∧ m.Status.Nodes = Slice.mk [])) := by
  rw [Reconcile_status_step r req s m found pods hget hdep heq hlist]
  have hnil := getPodNames_eq_nil_iff pods
  have hl := getPodNames_toList pods
  by_cases hde : reflect.DeepEqual (sort.Strings (getPodNames pods))
      (sort.Strings m.Status.Nodes) = true
  · have he : sort.Strings (getPodNames pods) = sort.Strings m.Status.Nodes := by
      simpa [reflect.DeepEqual] using hde
    simp only [hde, if_true, Call.isMutating, List.filter, ne_eq, not_true_eq_false, false_iff,
      not_or, not_not, not_and]
    refine ⟨by rw [he], ?_⟩
    intro hp hn
    rw [hp, hn] at he
    simp [getPodNames, sort.Strings] at he
  · have he : sort.Strings (getPodNames pods) ≠ sort.Strings m.Status.Nodes := by
      simpa [reflect.DeepEqual] using hde
    simp only [hde, Call.isMutating, List.filter, ne_eq, Bool.false_eq_true, if_false,
      not_false_eq_true, true_iff, reduceCtorEq]
    by_contra hcon
    rw [not_or] at hcon
    obtain ⟨h1, h2⟩ := hcon
    rw [not_not] at h1
    apply he
    cases hg : getPodNames pods with
    | nil =>
      have hp : pods = [] := hnil.mp hg
      cases hs : m.Status.Nodes with
      | nil => simp [sort.Strings]
      | mk l =>
        rw [hg, hs] at h1
        simp only [sort.Strings, Slice.toList] at h1
        have hl0 : l = [] := by
          have := (List.perm_insertionSort stringLE l).length_eq
          rw [← h1] at this
          exact List.length_eq_zero.mp this.symm
        exact absurd ⟨hp, by rw [hs, hl0]⟩ h2
    | mk a =>
      have ha : a ≠ [] := by
        intro ha
        rw [hg] at hl
        simp only [Slice.toList] at hl
        have : pods = [] := by
          rw [ha] at hl
          exact List.map_eq_nil_iff.mp hl.symm
        rw [hnil.mpr this] at hg
        cases hg
      cases hs : m.Status.Nodes with
      | nil =>
        rw [hg, hs] at h1
        simp only [sort.Strings, Slice.toList] at h1
        have := (List.perm_insertionSort stringLE a).length_eq
        rw [h1] at this
        exact absurd (List.length_eq_zero.mp this.symm) ha
      | mk l =>
        rw [hg, hs] at h1
        simp only [sort.Strings, Slice.toList] at h1
        simp [sort.Strings, h1]

/-! ## Every pass takes one of eight paths -/

/-- The paths through `Reconcile`: for every client, request and state, the
pass is one of the eight listed, each given with the outcome of the calls that
select it and the `Pass` it produces. -/
theorem Reconcile_cases {σ : Type} (r : MemcachedReconciler σ) (req : NamespacedName) (s : σ) :
    (∃ e, r.GetMemcached s req = Except.error e ∧
        Reconcile r req s = ⟨{}, IgnoreNotFound e, [Call.getMemcached req], s⟩) ∨
    (∃ m, r.GetMemcached s req = Except.ok m ∧
      ((∃ e, r.GetDeployment s ⟨m.Namespace, m.Name⟩ = Except.error e ∧ IsNotFound e = false ∧
          Reconcile r req s =
            ⟨{}, some e, [Call.getMemcached req, Call.getDeployment ⟨m.Namespace, m.Name⟩], s⟩) ∨
       (∃ e e', r.GetDeployment s ⟨m.Namespace, m.Name⟩ = Except.error e ∧ IsNotFound e = true ∧
          deploymentForMemcached r m = Except.error e' ∧
          Reconcile r req s =
            ⟨{}, some e', [Call.getMemcached req, Call.getDeployment ⟨m.Namespace, m.Name⟩], s⟩) ∨
       (∃ e dep, r.GetDeployment s ⟨m.Namespace, m.Name⟩ = Except.error e ∧ IsNotFound e = true ∧
          deploymentForMemcached r m = Except.ok dep ∧
          Reconcile r req s =
            ⟨{}, (r.Create s dep).1,
              [Call.getMemcached req, Call.getDeployment ⟨m.Namespace, m.Name⟩, Call.create dep],
              (r.Create s dep).2⟩) ∨
       (∃ found dep, r.GetDeployment s ⟨m.Namespace, m.Name⟩ = Except.ok found ∧
          found.Spec.Replicas ≠ some m.Spec.Size ∧
          dep = { found with Spec := { found.Spec with Replicas := some m.Spec.Size } } ∧
          Reconcile r req s =
            ⟨{}, (r.Update s dep).1,
              [Call.getMemcached req, Call.getDeployment ⟨m.Namespace, m.Name⟩, Call.update dep],
              (r.Update s dep).2⟩) ∨
       (∃ found e, r.GetDeployment s ⟨m.Namespace, m.Name⟩ = Except.ok found ∧
          found.Spec.Replicas = some m.Spec.Size ∧
          r.List s m.Namespace (labelsForMemcached m.Name) = Except.error e ∧
          Reconcile r req s =
            ⟨{}, some e,
              [Call.getMemcached req, Call.getDeployment ⟨m.Namespace, m.Name⟩,
                Call.list m.Namespace (labelsForMemcached m.Name)], s⟩) ∨
       (∃ found pods, r.GetDeployment s ⟨m.Namespace, m.Name⟩ = Except.ok found ∧
          found.Spec.Replicas = some m.Spec.Size ∧
          r.List s m.Namespace (labelsForMemcached m.Name) = Except.ok pods ∧
          reflect.DeepEqual (sort.Strings (getPodNames pods)) (sort.Strings m.Status.Nodes) = true ∧
          Reconcile r req s =
            ⟨{}, none,
              [Call.getMemcached req, Call.getDeployment ⟨m.Namespace, m.Name⟩,
                Call.list m.Namespace (labelsForMemcached m.Name)], s⟩) ∨
       (∃ found pods m', r.GetDeployment s ⟨m.Namespace, m.Name⟩ = Except.ok found ∧
          found.Spec.Replicas = some m.Spec.Size ∧
          r.List s m.Namespace (labelsForMemcached m.Name) = Except.ok pods ∧
          reflect.DeepEqual (sort.Strings (getPodNames pods)) (sort.Strings m.Status.Nodes) = false ∧
          m' = { m with Status := { Nodes := sort.Strings (getPodNames pods) } } ∧
          Reconcile r req s =
            ⟨{}, (r.StatusUpdate s m').1,
              [Call.getMemcached req, Call.getDeployment ⟨m.Namespace, m.Name⟩,
                Call.list m.Namespace (labelsForMemcached m.Name), Call.statusUpdate m'],
              (r.StatusUpdate s m').2⟩))) := by
  cases hget : r.GetMemcached s req with
  | error e => exact Or.inl ⟨e, rfl, by simp [Reconcile, hget]⟩
  | ok m =>
    refine Or.inr ⟨m, rfl, ?_⟩
    cases hdep : r.GetDeployment s ⟨m.Namespace, m.Name⟩ with
    | error e =>
      by_cases hnf : IsNotFound e = true
      · cases hb : deploymentForMemcached r m with
        | error e' =>
          exact Or.inr (Or.inl ⟨e, e', rfl, hnf, rfl, by simp [Reconcile, hget, hdep, hnf, hb]⟩)
        | ok dep =>
          refine Or.inr (Or.inr (Or.inl ⟨e, dep, rfl, hnf, rfl, ?_⟩))
          rcases hc : r.Create s dep with ⟨_ | e2, s'⟩ <;>
            simp [Reconcile, hget, hdep, hnf, hb, hc]
      · have hnf' : IsNotFound e = false := by simpa using hnf
        exact Or.inl ⟨e, rfl, hnf', by simp [Reconcile, hget, hdep, hnf']⟩
    | ok found =>
      by_cases heq : found.Spec.Replicas = some m.Spec.Size
      · cases hl : r.List s m.Namespace (labelsForMemcached m.Name) with
        | error e =>
          exact Or.inr (Or.inr (Or.inr (Or.inr (Or.inl
            ⟨found, e, rfl, heq, rfl, by simp [Reconcile, hget, hdep, heq, hl]⟩))))
        | ok pods =>
          have hstep := Reconcile_status_step r req s m found pods hget hdep heq hl
          by_cases hde : reflect.DeepEqual (sort.Strings (getPodNames pods))
              (sort.Strings m.Status.Nodes) = true
          · exact Or.inr (Or.inr (Or.inr (Or.inr (Or.inr (Or.inl
              ⟨found, pods, rfl, heq, rfl, hde, by rw [hstep, if_pos hde]⟩)))))
          · exact Or.inr (Or.inr (Or.inr (Or.inr (Or.inr (Or.inr
              ⟨found, pods, _, rfl, heq, rfl, by simpa using hde, rfl,
                by rw [hstep, if_neg hde]⟩)))))
      · refine Or.inr (Or.inr (Or.inr (Or.inl ⟨found, _, rfl, heq, rfl, ?_⟩)))
        rcases hu : r.Update s
            { found with Spec := { found.Spec with Replicas := some m.Spec.Size } }
          with ⟨_ | e2, s'⟩ <;>
          simp [Reconcile, hget, hdep, heq, hu]

/-! ## What a status update writes -/

/-- C5: whenever the pass issues a status update, the member list written is
the pod names of the listed pods in sorted order: it is sorted for the string
order and a permutation of the names `getPodNames` extracts, which are the
names of the listed pods one for one; and that status update is the only
mutating call of the pass. -/
theorem Reconcile_status_update_sorted {σ : Type} (r : MemcachedReconciler σ)
    (req : NamespacedName) (s : σ) (written : Memcached)
    (h : Call.statusUpdate written ∈ (Reconcile r req s).calls) :
    ∃ m pods, r.GetMemcached s req = Except.ok m ∧
      r.List s m.Namespace (labelsForMemcached m.Name) = Except.ok pods ∧
      (getPodNames pods).toList = pods.map (fun pod => pod.Name) ∧
      written.Status.Nodes.toList.Sorted stringLE ∧
      written.Status.Nodes.toList.Perm (getPodNames pods).toList ∧
      (Reconcile r req s).calls.filter Call.isMutating = [Call.statusUpdate written] := by
  rcases Reconcile_cases r req s with ⟨e, _, hR⟩ | ⟨m, hget, hcase⟩
  · rw [hR] at h
    simp at h
  · rcases hcase with ⟨e, _, _, hR⟩ | ⟨e, e', _, _, _, hR⟩ | ⟨e, dep, _, _, _, hR⟩ |
      ⟨found, dep, _, _, _, hR⟩ | ⟨found, e, _, _, _, hR⟩ | ⟨found, pods, _, _, _, _, hR⟩ |
      ⟨found, pods, m', _, _, hl, _, hm', hR⟩
    · rw [hR] at h; simp at h
    · rw [hR] at h; simp at h
    · rw [hR] at h; simp at h
    · rw [hR] at h; simp at h
    · rw [hR] at h; simp at h
    · rw [hR] at h; simp at h
    · rw [hR] at h
      have hw : written = m' := by simpa using h
      subst hw
      refine ⟨m, pods, hget, hl, getPodNames_toList pods, ?_, ?_, ?_⟩
      · rw [hm']
        exact (sort_Strings_toList (getPodNames pods)).1
      · rw [hm']
        exact (sort_Strings_toList (getPodNames pods)).2
      · rw [hR]
        simp [Call.isMutating]

/-- Witness of C5: pods named c, a, b with no stored status give a status
update that writes a, b, c. -/
theorem Reconcile_status_update_sorted_witness :
    Call.statusUpdate (sampleMemcached 3 (Slice.mk ["a", "b", "c"])) ∈
        (Reconcile (clusterReconciler registeredScheme) sampleKey
          { Memcacheds := [sampleMemcached 3 Slice.nil]
            Deployments := [sampleDeployment (some 3)]
            Pods := [samplePod "c", samplePod "a", samplePod "b"] }).calls ∧
      ∃ m pods,
        (clusterReconciler registeredScheme).GetMemcached
            { Memcacheds := [sampleMemcached 3 Slice.nil]
              Deployments := [sampleDeployment (some 3)]
              Pods := [samplePod "c", samplePod "a", samplePod "b"] } sampleKey = Except.ok m ∧
          (clusterReconciler registeredScheme).List
            { Memcacheds := [sampleMemcached 3 Slice.nil]
              Deployments := [sampleDeployment (some 3)]
              Pods := [samplePod "c", samplePod "a", samplePod "b"] }
            m.Namespace (labelsForMemcached m.Name) = Except.ok pods ∧
          (getPodNames pods).toList = pods.map (fun pod => pod.Name) ∧
          (sampleMemcached 3 (Slice.mk ["a", "b", "c"])).Status.Nodes.toList.Sorted stringLE ∧
          (sampleMemcached 3 (Slice.mk ["a", "b", "c"])).Status.Nodes.toList.Perm
            (getPodNames pods).toList ∧
          (Reconcile (clusterReconciler registeredScheme) sampleKey
            { Memcacheds := [sampleMemcached 3 Slice.nil]
              Deployments := [sampleDeployment (some 3)]
              Pods := [samplePod "c", samplePod "a", samplePod "b"] }).calls.filter
              Call.isMutating =
            [Call.statusUpdate (sampleMemcached 3 (Slice.mk ["a", "b", "c"]))] :=
  ⟨by decide,
    Reconcile_status_update_sorted (clusterReconciler registeredScheme) sampleKey _
      (sampleMemcached 3 (Slice.mk ["a", "b", "c"])) (by decide)⟩

/-! ## One mutating call at most -/

/-- C7: for every client (so every outcome of every call), request and state,
the pass issues at most one mutating call, and every call but the last is a
read: nothing is issued after a mutating call. -/
theorem Reconcile_at_most_one_mutation {σ : Type} (r : MemcachedReconciler σ)
    (req : NamespacedName) (s : σ) :
    ((Reconcile r req s).calls.filter Call.isMutating).length ≤ 1 ∧
      (Reconcile r req s).calls.dropLast.all (fun c => !c.isMutating) = true := by
  rcases Reconcile_cases r req s with ⟨e, _, hR⟩ | ⟨m, hget, hcase⟩
  · rw [hR]
    simp [Call.isMutating]
  · rcases hcase with ⟨e, _, _, hR⟩ | ⟨e, e', _, _, _, hR⟩ | ⟨e, dep, _, _, _, hR⟩ |
      ⟨found, dep, _, _, _, hR⟩ | ⟨found, e, _, _, _, hR⟩ | ⟨found, pods, _, _, _, _, hR⟩ |
      ⟨found, pods, m', _, _, _, _, _, hR⟩ <;>
    · rw [hR]
      simp [Call.isMutating]

/-! ## Which errors surface -/

/-- C8: the pass returns the error `err` exactly when one step fails with
`err` other than by an absorbed absence: the fetch of the `Memcached` or of
the `Deployment` with an error that is not not-found, the builder, or the
create, update, pod list or status update call.  Whenever one of these steps
fails, the pass returns the error of that step and its calls are those up to
and including that step, none after it.  A not-found on the fetch of the
`Memcached` gives no error, and a not-found on the fetch of the `Deployment`
followed by a successful build and create gives no error. -/
theorem Reconcile_err_iff {σ : Type} (r : MemcachedReconciler σ) (req : NamespacedName) (s : σ)
    (err : Error) :
    ((Reconcile r req s).err = some err ↔
      ((r.GetMemcached s req = Except.error err ∧ IsNotFound err = false) ∨
       (∃ m, r.GetMemcached s req = Except.ok m ∧
        ((r.GetDeployment s ⟨m.Namespace, m.Name⟩ = Except.error err ∧ IsNotFound err = false) ∨
         (∃ e, r.GetDeployment s ⟨m.Namespace, m.Name⟩ = Except.error e ∧ IsNotFound e = true ∧
            deploymentForMemcached r m = Except.error err) ∨
         (∃ e dep, r.GetDeployment s ⟨m.Namespace, m.Name⟩ = Except.error e ∧
            IsNotFound e = true ∧ deploymentForMemcached r m = Except.ok dep ∧
            (r.Create s dep).1 = some err) ∨
         (∃ found, r.GetDeployment s ⟨m.Namespace, m.Name⟩ = Except.ok found ∧
            found.Spec.Replicas ≠ some m.Spec.Size ∧
            (r.Update s
              { found with Spec := { found.Spec with Replicas := some m.Spec.Size } }).1 =
                some err) ∨
         (∃ found, r.GetDeployment s ⟨m.Namespace, m.Name⟩ = Except.ok found ∧
            found.Spec.Replicas = some m.Spec.Size ∧
            r.List s m.Namespace (labelsForMemcached m.Name) = Except.error err) ∨
         (∃ found pods, r.GetDeployment s ⟨m.Namespace, m.Name⟩ = Except.ok found ∧
            found.Spec.Replicas = some m.Spec.Size ∧
            r.List s m.Namespace (labelsForMemcached m.Name) = Except.ok pods ∧
            reflect.DeepEqual (sort.Strings (getPodNames pods))
              (sort.Strings m.Status.Nodes) = false ∧
            (r.StatusUpdate s
              { m with Status := { Nodes := sort.Strings (getPodNames pods) } }).1 =
                some err))))) ∧
    -- a failing fetch of the Memcached
    (∀ e, r.GetMemcached s req = Except.error e → IsNotFound e = false →
      (Reconcile r req s).err = some e ∧ (Reconcile r req s).calls = [Call.getMemcached req]) ∧
    -- a failing fetch of the Deployment
    (∀ m e, r.GetMemcached s req = Except.ok m →
      r.GetDeployment s ⟨m.Namespace, m.Name⟩ = Except.error e → IsNotFound e = false →
      (Reconcile r req s).err = some e ∧
        (Reconcile r req s).calls =
          [Call.getMemcached req, Call.getDeployment ⟨m.Namespace, m.Name⟩]) ∧
    -- a failing build
    (∀ m e e', r.GetMemcached s req = Except.ok m →
      r.GetDeployment s ⟨m.Namespace, m.Name⟩ = Except.error e → IsNotFound e = true →
      deploymentForMemcached r m = Except.error e' →
      (Reconcile r req s).err = some e' ∧
        (Reconcile r req s).calls =
          [Call.getMemcached req, Call.getDeployment ⟨m.Namespace, m.Name⟩]) ∧
    -- a failing create
    (∀ m e dep e', r.GetMemcached s req = Except.ok m →
      r.GetDeployment s ⟨m.Namespace, m.Name⟩ = Except.error e → IsNotFound e = true →
      deploymentForMemcached r m = Except.ok dep → (r.Create s dep).1 = some e' →
      (Reconcile r req s).err = some e' ∧
        (Reconcile r req s).calls =
          [Call.getMemcached req, Call.getDeployment ⟨m.Namespace, m.Name⟩, Call.create dep]) ∧
    -- a failing update
    (∀ m found e', r.GetMemcached s req = Except.ok m →
      r.GetDeployment s ⟨m.Namespace, m.Name⟩ = Except.ok found →
      found.Spec.Replicas ≠ some m.Spec.Size →
      (r.Update s { found with Spec := { found.Spec with Replicas := some m.Spec.Size } }).1 =
        some e' →
      (Reconcile r req s).err = some e' ∧
        (Reconcile r req s).calls =
          [Call.getMemcached req, Call.getDeployment ⟨m.Namespace, m.Name⟩,
            Call.update { found with Spec := { found.Spec with Replicas := some m.Spec.Size } }]) ∧
    -- a failing pod list
    (∀ m found e, r.GetMemcached s req = Except.ok m →
      r.GetDeployment s ⟨m.Namespace, m.Name⟩ = Except.ok found →
      found.Spec.Replicas = some m.Spec.Size →
      r.List s m.Namespace (labelsForMemcached m.Name) = Except.error e →
      (Reconcile r req s).err = some e ∧
        (Reconcile r req s).calls =
          [Call.getMemcached req, Call.getDeployment ⟨m.Namespace, m.Name⟩,
            Call.list m.Namespace (labelsForMemcached m.Name)]) ∧
    -- a failing status update
    (∀ m found pods e', r.GetMemcached s req = Except.ok m →
      r.GetDeployment s ⟨m.Namespace, m.Name⟩ = Except.ok found →
      found.Spec.Replicas = some m.Spec.Size →
      r.List s m.Namespace (labelsForMemcached m.Name) = Except.ok pods →
      reflect.DeepEqual (sort.Strings (getPodNames pods)) (sort.Strings m.Status.Nodes) = false →
      (r.StatusUpdate s { m with Status := { Nodes := sort.Strings (getPodNames pods) } }).1 =
        some e' →
      (Reconcile r req s).err = some e' ∧
        (Reconcile r req s).calls =
          [Call.getMemcached req, Call.getDeployment ⟨m.Namespace, m.Name⟩,
            Call.list m.Namespace (labelsForMemcached m.Name),
            Call.statusUpdate
              { m with Status := { Nodes := sort.Strings (getPodNames pods) } }]) ∧
    -- the two absorbed absences
    (∀ e, r.GetMemcached s req = Except.error e → IsNotFound e = true →
      (Reconcile r req s).err = none) ∧
    (∀ m e dep, r.GetMemcached s req = Except.ok m →
      r.GetDeployment s ⟨m.Namespace, m.Name⟩ = Except.error e → IsNotFound e = true →
      deploymentForMemcached r m = Except.ok dep → (r.Create s dep).1 = none →
      (Reconcile r req s).err = none) := by
  refine ⟨?_, ?_, ?_, ?_, ?_, ?_, ?_, ?_, ?_, ?_⟩
  · rcases Reconcile_cases r req s with ⟨e, hget, hR⟩ | ⟨m, hget, hcase⟩
    · rw [hR]
      by_cases hnf : IsNotFound e = true
      · simp only [hget, IgnoreNotFound, hnf, if_true]
        constructor
        · intro h
          cases h
        · rintro (⟨h1, h2⟩ | ⟨m, h1, _⟩)
          · injection h1 with h1
            rw [h1, h2] at hnf
            cases hnf
          · cases h1
      · have hnf' : IsNotFound e = false := by simpa using hnf
        simp only [hget, IgnoreNotFound, hnf']
        constructor
        · intro h
          have he : e = err := by simpa using h
          subst he
          exact Or.inl ⟨rfl, hnf'⟩
        · rintro (⟨h1, _⟩ | ⟨m, h1, _⟩)
          · injection h1 with h1
            simp [h1]
          · cases h1
    · rcases hcase with ⟨e, hdep, hnf, hR⟩ | ⟨e, e', hdep, hnf, hb, hR⟩ |
        ⟨e, dep, hdep, hnf, hb, hR⟩ | ⟨found, dep, hdep, hne, hd, hR⟩ |
        ⟨found, e, hdep, heq, hl, hR⟩ | ⟨found, pods, hdep, heq, hl, hde, hR⟩ |
        ⟨found, pods, m', hdep, heq, hl, hde, hm', hR⟩
      · rw [hR]
        simp [hget, hdep, hnf]
        intro he
        rw [← he]
        exact hnf
      · rw [hR]
        simp [hget, hdep, hnf, hb]
        intro he hnf'
        rw [he, hnf'] at hnf
        cases hnf
      · rw [hR]
        simp [hget, hdep, hnf, hb]
        intro he hnf'
        rw [he, hnf'] at hnf
        cases hnf
      · rw [hR]
        simp [hget, hdep, hne, hd]
      · rw [hR]
        simp [hget, hdep, heq, hl]
      · rw [hR]
        simp [hget, hdep, heq, hl, hde]
      · rw [hR]
        simp [hget, hdep, heq, hl, hde, hm']
  · intro e hget hnf
    simp [Reconcile, hget, IgnoreNotFound, hnf]
  · intro m e hget hdep hnf
    simp [Reconcile, hget, hdep, hnf]
  · intro m e e' hget hdep hnf hb
    simp [Reconcile, hget, hdep, hnf, hb]
  · intro m e dep e' hget hdep hnf hb hc
    rcases hc' : r.Create s dep with ⟨_ | e₂, s₁⟩
    · rw [hc'] at hc
      cases hc
    · rw [hc'] at hc
      injection hc with hc
      subst hc
      simp [Reconcile, hget, hdep, hnf, hb, hc']
  · intro m found e' hget hdep hne hu
    rcases hu' : r.Update s
        { found with Spec := { found.Spec with Replicas := some m.Spec.Size } }
      with ⟨_ | e₂, s₁⟩
    · rw [hu'] at hu
      cases hu
    · rw [hu'] at hu
      injection hu with hu
      subst hu
      simp [Reconcile, hget, hdep, hne, hu']
  · intro m found e hget hdep heq hl
    simp [Reconcile, hget, hdep, heq, hl]
  · intro m found pods e' hget hdep heq hl hde hu
    rw [Reconcile_status_step r req s m found pods hget hdep heq hl]
    simp [hde, hu]
  · intro e hget hnf
    simp [Reconcile, hget, IgnoreNotFound, hnf]
  · intro m e dep hget hdep hnf hb hc
    rcases hc' : r.Create s dep with ⟨_ | e₂, s₁⟩
    · simp [Reconcile, hget, hdep, hnf, hb, hc']
    · rw [hc'] at hc
      cases hc

/-! ## The builder -/

/-- The builder returns what `SetControllerReference` returns on the built
object. -/
theorem deploymentForMemcached_eq {σ : Type} (r : MemcachedReconciler σ) (m : Memcached) :
    deploymentForMemcached r m =
      SetControllerReference m (deploymentForMemcached.dep m) r.Scheme := by
  unfold deploymentForMemcached
  cases h : SetControllerReference m (deploymentForMemcached.dep m) r.Scheme <;> simp [h]

/-- C9: the builder fails, with an error `e`, exactly when
`SetControllerReference` fails with `e` on the object it built, and it then
returns no `Deployment`; and when that happens in a pass where the
`Memcached` exists and the fetch of its `Deployment` reports not-found, the
pass issues the two fetches only, leaves the store as it was and returns
`e`. -/
theorem deploymentForMemcached_fails_iff {σ : Type} (r : MemcachedReconciler σ)
    (req : NamespacedName) (s : σ) (m : Memcached) (err : Error)
    (hget : r.GetMemcached s req = Except.ok m)
    (hdep : r.GetDeployment s { Namespace := m.Namespace, Name := m.Name } = Except.error err)
    (hnf : IsNotFound err = true) :
    (∀ e, deploymentForMemcached r m = Except.error e ↔
        SetControllerReference m (deploymentForMemcached.dep m) r.Scheme = Except.error e) ∧
      (∀ e, deploymentForMemcached r m = Except.error e →
        (∀ dep, deploymentForMemcached r m ≠ Except.ok dep) ∧
          Reconcile r req s =
            { result := {}, err := some e
              calls := [Call.getMemcached req,
                Call.getDeployment { Namespace := m.Namespace, Name := m.Name }]
              store := s }) := by
  refine ⟨fun e => by rw [deploymentForMemcached_eq], fun e hb => ⟨?_, ?_⟩⟩
  · intro dep hd
    rw [hb] at hd
    cases hd
  · simp [Reconcile, hget, hdep, hnf, hb]

/-- Witness of C9: with the `Memcached` kind missing from the scheme the
builder fails, and the pass on a cluster without the `Deployment` issues no
create and returns the error of the scheme. -/
theorem deploymentForMemcached_fails_iff_witness :
    deploymentForMemcached (clusterReconciler emptyScheme) (sampleMemcached 3 Slice.nil) =
        Except.error
          { Reason := "NotRegistered", Message := "no kind is registered for the type Memcached" } ∧
      Reconcile (clusterReconciler emptyScheme) sampleKey
          { Memcacheds := [sampleMemcached 3 Slice.nil] } =
        { result := {}
          err := some
            { Reason := "NotRegistered", Message := "no kind is registered for the type Memcached" }
          calls := [Call.getMemcached sampleKey, Call.getDeployment sampleKey]
          store := { Memcacheds := [sampleMemcached 3 Slice.nil] } } :=
  ⟨rfl,
    ((deploymentForMemcached_fails_iff (clusterReconciler emptyScheme) sampleKey
      { Memcacheds := [sampleMemcached 3 Slice.nil] } (sampleMemcached 3 Slice.nil)
      (errNotFound "sample") rfl rfl (by decide)).2 _ rfl).2⟩

/-- C10: for every `Memcached` with `Spec.Size` between 1 and 5 on which the
builder succeeds, the built `Deployment` has `Replicas` set, to `Spec.Size`. -/
theorem deploymentForMemcached_replicas {σ : Type} (r : MemcachedReconciler σ) (m : Memcached)
    (dep : Deployment) (_hmin : 1 ≤ m.Spec.Size) (_hmax : m.Spec.Size ≤ 5)
    (hbuild : deploymentForMemcached r m = Except.ok dep) :
    dep.Spec.Replicas = some m.Spec.Size := by
  rw [(deploymentForMemcached_ok r m dep hbuild).2.2.1]
  rfl

/-- Witness of C10: size 3 under a scheme that knows the kind. -/
theorem deploymentForMemcached_replicas_witness :
    (1 : Int) ≤ (sampleMemcached 3 Slice.nil).Spec.Size ∧
      (sampleMemcached 3 Slice.nil).Spec.Size ≤ 5 ∧
      deploymentForMemcached (clusterReconciler registeredScheme) (sampleMemcached 3 Slice.nil) =
        Except.ok (sampleBuilt 3) ∧
      (sampleBuilt 3).Spec.Replicas = some (sampleMemcached 3 Slice.nil).Spec.Size :=
  ⟨by decide, by decide, rfl,
    deploymentForMemcached_replicas (clusterReconciler registeredScheme)
      (sampleMemcached 3 Slice.nil) (sampleBuilt 3) (by decide) (by decide) rfl⟩

/-! ## Two passes in a row on the in-memory store -/

/-- Sorting a sorted slice changes nothing. -/
theorem sort_Strings_idem (x : Slice String) : sort.Strings (sort.Strings x) = sort.Strings x := by
  cases x with
  | nil => rfl
  | mk l =>
    simp only [sort.Strings]
    rw [(List.sorted_insertionSort stringLE l).insertionSort_eq]

/-- An object carries a key exactly when its namespace and name are those of
the key. -/
theorem hasKey_iff (key : NamespacedName) (ns name : String) :
    hasKey key ns name = true ↔ ns = key.Namespace ∧ name = key.Name := by
  simp [hasKey]

/-- A fetched `Memcached` is stored under the key asked for. -/
theorem Cluster.GetMemcached_ok (c : Cluster) (key : NamespacedName) (m : Memcached)
    (h : c.GetMemcached key = Except.ok m) :
    c.Memcacheds.find? (fun x => hasKey key x.Namespace x.Name) = some m ∧
      m.Namespace = key.Namespace ∧ m.Name = key.Name := by
  unfold Cluster.GetMemcached at h
  cases hf : c.Memcacheds.find? (fun x => hasKey key x.Namespace x.Name) with
  | none => simp [hf] at h
  | some x =>
    simp only [hf] at h
    injection h with h
    subst h
    have hk := List.find?_some hf
    exact ⟨rfl, (hasKey_iff key _ _).mp hk⟩

/-- A fetched `Deployment` is stored under the key asked for. -/
theorem Cluster.GetDeployment_ok (c : Cluster) (key : NamespacedName) (d : Deployment)
    (h : c.GetDeployment key = Except.ok d) :
    c.Deployments.find? (fun x => hasKey key x.Namespace x.Name) = some d ∧
      d.Namespace = key.Namespace ∧ d.Name = key.Name := by
  unfold Cluster.GetDeployment at h
  cases hf : c.Deployments.find? (fun x => hasKey key x.Namespace x.Name) with
  | none => simp [hf] at h
  | some x =>
    simp only [hf] at h
    injection h with h
    subst h
    have hk := List.find?_some hf
    exact ⟨rfl, (hasKey_iff key _ _).mp hk⟩

/-- A failed fetch of a `Deployment` means none is stored under the key. -/
theorem Cluster.GetDeployment_error (c : Cluster) (key : NamespacedName) (e : Error)
    (h : c.GetDeployment key = Except.error e) :
    c.Deployments.find? (fun x => hasKey key x.Namespace x.Name) = none := by
  unfold Cluster.GetDeployment at h
  cases hf : c.Deployments.find? (fun x => hasKey key x.Namespace x.Name) with
  | none => rfl
  | some x => simp [hf] at h

/-- Replacing every object under a key by one that carries the key: the fetch
under that key returns the replacement of what it returned before. -/
theorem find?_map_replace {α : Type} (p : α → Bool) (f : α → α) (l : List α)
    (hf : ∀ x, p (f x) = p x) : (l.map f).find? p = (l.find? p).map f := by
  induction l with
  | nil => rfl
  | cons a l ih =>
    simp only [List.map_cons, List.find?_cons, hf a]
    cases p a <;> simp [ih]

/-- With the `Deployment` at the desired size, the only mutating call a pass
can issue is a status update. -/
theorem Reconcile_settled_child {σ : Type} (r : MemcachedReconciler σ)
    (req : NamespacedName) (s : σ) (m : Memcached) (found : Deployment)
    (hget : r.GetMemcached s req = Except.ok m)
    (hdep : r.GetDeployment s { Namespace := m.Namespace, Name := m.Name } = Except.ok found)
    (heq : found.Spec.Replicas = some m.Spec.Size)
    (c : Call) (hc : c ∈ (Reconcile r req s).calls) (hm : c.isMutating = true) :
    ∃ w, c = Call.statusUpdate w := by
  cases hl : r.List s m.Namespace (labelsForMemcached m.Name) with
  | error e =>
    have hR : (Reconcile r req s).calls =
        [Call.getMemcached req, Call.getDeployment ⟨m.Namespace, m.Name⟩,
          Call.list m.Namespace (labelsForMemcached m.Name)] := by
      simp [Reconcile, hget, hdep, heq, hl]
    rw [hR] at hc
    simp only [List.mem_cons, List.mem_singleton, List.not_mem_nil, or_false] at hc
    rcases hc with rfl | rfl | rfl <;> simp [Call.isMutating] at hm
  | ok pods =>
    rw [Reconcile_status_step r req s m found pods hget hdep heq hl] at hc
    split at hc
    · simp only [List.mem_cons, List.mem_singleton, List.not_mem_nil, or_false] at hc
      rcases hc with rfl | rfl | rfl <;> simp [Call.isMutating] at hm
    · simp only [List.mem_cons, List.mem_singleton, List.not_mem_nil, or_false] at hc
      rcases hc with rfl | rfl | rfl | rfl
      · simp [Call.isMutating] at hm
      · simp [Call.isMutating] at hm
      · simp [Call.isMutating] at hm
      · exact ⟨_, rfl⟩

/-- A pass that leaves the store as it was and issued no mutating call is
repeated unchanged by the next pass. -/
theorem Reconcile_repeat_of_unchanged {σ : Type} (r : MemcachedReconciler σ)
    (req : NamespacedName) (s : σ) (hs : (Reconcile r req s).store = s)
    (hcalls : (Reconcile r req s).calls.all (fun c => !c.isMutating) = true)
    (c : Call) (hc : c ∈ (Reconcile r req (Reconcile r req s).store).calls)
    (hm : c.isMutating = true) : False := by
  rw [hs] at hc
  have := List.all_eq_true.mp hcalls c hc
  simp [hm] at this

/-- A fetch of a `Memcached` depends on the stored `Memcached` objects only. -/
theorem Cluster.GetMemcached_congr (c c' : Cluster) (h : c'.Memcacheds = c.Memcacheds)
    (key : NamespacedName) : c'.GetMemcached key = c.GetMemcached key := by
  unfold Cluster.GetMemcached
  rw [h]

/-- A fetch of a `Deployment` depends on the stored `Deployment` objects only. -/
theorem Cluster.GetDeployment_congr (c c' : Cluster) (h : c'.Deployments = c.Deployments)
    (key : NamespacedName) : c'.GetDeployment key = c.GetDeployment key := by
  unfold Cluster.GetDeployment
  rw [h]

/-- A pod list depends on the stored pods only. -/
theorem Cluster.ListPods_congr (c c' : Cluster) (h : c'.Pods = c.Pods) (ns : String)
    (labels : List (String × String)) : c'.ListPods ns labels = c.ListPods ns labels := by
  unfold Cluster.ListPods
  rw [h]

/-- A create on a free name succeeds, touches the `Deployment` objects only,
and the created object is what the next fetch under its name returns. -/
theorem Cluster.Create_spec (c : Cluster) (dep : Deployment)
    (h : c.Deployments.find? (fun d => hasKey ⟨dep.Namespace, dep.Name⟩ d.Namespace d.Name) = none) :
    (c.Create dep).1 = none ∧ (c.Create dep).2.Memcacheds = c.Memcacheds ∧
      (c.Create dep).2.Pods = c.Pods ∧
      (c.Create dep).2.GetDeployment ⟨dep.Namespace, dep.Name⟩ =
        Except.ok { dep with ResourceVersion := dep.ResourceVersion + 1 } := by
  have hk : hasKey ⟨dep.Namespace, dep.Name⟩ dep.Namespace dep.Name = true := by simp [hasKey]
  have hc : c.Create dep = (none, { c with Deployments :=
      c.Deployments ++ [{ dep with ResourceVersion := dep.ResourceVersion + 1 }] }) := by
    unfold Cluster.Create
    rw [h]
  rw [hc]
  refine ⟨rfl, rfl, rfl, ?_⟩
  unfold Cluster.GetDeployment
  simp only [List.find?_append, h, Option.none_or, List.find?_cons, hk]

/-- An update of a stored `Deployment` with its current version token
succeeds, touches the `Deployment` objects only, and the object written is
what the next fetch under its name returns. -/
theorem Cluster.Update_spec (c : Cluster) (dep old : Deployment)
    (h : c.Deployments.find? (fun d => hasKey ⟨dep.Namespace, dep.Name⟩ d.Namespace d.Name) =
      some old)
    (hrv : old.ResourceVersion = dep.ResourceVersion) :
    (c.Update dep).1 = none ∧ (c.Update dep).2.Memcacheds = c.Memcacheds ∧
      (c.Update dep).2.Pods = c.Pods ∧
      (c.Update dep).2.GetDeployment ⟨dep.Namespace, dep.Name⟩ =
        Except.ok { dep with ResourceVersion := dep.ResourceVersion + 1 } := by
  have hk : hasKey ⟨dep.Namespace, dep.Name⟩ dep.Namespace dep.Name = true := by simp [hasKey]
  have hko := List.find?_some h
  have hu : c.Update dep = (none, { c with Deployments := c.Deployments.map (fun d =>
      if hasKey ⟨dep.Namespace, dep.Name⟩ d.Namespace d.Name then
        { dep with ResourceVersion := dep.ResourceVersion + 1 }
      else d) }) := by
    unfold Cluster.Update
    rw [h]
    exact if_neg (not_not.mpr hrv)
  rw [hu]
  refine ⟨rfl, rfl, rfl, ?_⟩
  unfold Cluster.GetDeployment
  rw [find?_map_replace, h]
  · simp [hko]
  · intro x
    by_cases hx : hasKey ⟨dep.Namespace, dep.Name⟩ x.Namespace x.Name = true
    · simp [hx, hk]
    · simp [hx]

/-- A status update of a stored `Memcached` with its current version token
succeeds, touches the `Memcached` objects only, and the next fetch under its
name returns the stored object with the status written. -/
theorem Cluster.StatusUpdate_spec (c : Cluster) (m old : Memcached)
    (h : c.Memcacheds.find? (fun x => hasKey ⟨m.Namespace, m.Name⟩ x.Namespace x.Name) = some old)
    (hrv : old.ResourceVersion = m.ResourceVersion) :
    (c.StatusUpdate m).1 = none ∧ (c.StatusUpdate m).2.Deployments = c.Deployments ∧
      (c.StatusUpdate m).2.Pods = c.Pods ∧
      (c.StatusUpdate m).2.GetMemcached ⟨m.Namespace, m.Name⟩ =
        Except.ok { old with Status := m.Status, ResourceVersion := old.ResourceVersion + 1 } := by
  have hko := List.find?_some h
  have hu : c.StatusUpdate m = (none, { c with Memcacheds := c.Memcacheds.map (fun x =>
      if hasKey ⟨m.Namespace, m.Name⟩ x.Namespace x.Name then
        { x with Status := m.Status, ResourceVersion := x.ResourceVersion + 1 }
      else x) }) := by
    unfold Cluster.StatusUpdate
    rw [h]
    exact if_neg (not_not.mpr hrv)
  rw [hu]
  refine ⟨rfl, rfl, rfl, ?_⟩
  unfold Cluster.GetMemcached
  rw [find?_map_replace, h]
  · simp [hko]
  · intro x
    by_cases hx : hasKey ⟨m.Namespace, m.Name⟩ x.Namespace x.Name = true
    · simp [hx]
    · simp [hx]

/-- The in-memory store keeps the store laws. -/
theorem Cluster.client_keeps_laws : LawfulStore Cluster.client where
  getMemcached_key := fun s key m h => (Cluster.GetMemcached_ok s key m h).2
  getDeployment_key := fun s key d h => (Cluster.GetDeployment_ok s key d h).2
  create_ok := by
    intro s dep h
    have hnone : s.Deployments.find?
        (fun d => hasKey ⟨dep.Namespace, dep.Name⟩ d.Namespace d.Name) = none := by
      cases hf : s.Deployments.find?
          (fun d => hasKey ⟨dep.Namespace, dep.Name⟩ d.Namespace d.Name) with
      | none => rfl
      | some x =>
        have h' : (s.Create dep).1 = none := h
        simp [Cluster.Create, hf] at h'
    obtain ⟨_, hM, _, hD⟩ := Cluster.Create_spec s dep hnone
    exact ⟨fun key => Cluster.GetMemcached_congr s _ hM key, _, hD, rfl⟩
  update_ok := by
    intro s dep h
    have h' : (s.Update dep).1 = none := h
    cases hf : s.Deployments.find?
        (fun d => hasKey ⟨dep.Namespace, dep.Name⟩ d.Namespace d.Name) with
    | none => simp [Cluster.Update, hf] at h'
    | some old =>
      by_cases hrv : old.ResourceVersion = dep.ResourceVersion
      · obtain ⟨_, hM, _, hD⟩ := Cluster.Update_spec s dep old hf hrv
        exact ⟨fun key => Cluster.GetMemcached_congr s _ hM key, _, hD, rfl⟩
      · simp [Cluster.Update, hf, hrv] at h'
  statusUpdate_ok := by
    intro s w old h hold
    have h' : (s.StatusUpdate w).1 = none := h
    obtain ⟨hf, _, _⟩ := Cluster.GetMemcached_ok s _ old hold
    by_cases hrv : old.ResourceVersion = w.ResourceVersion
    · obtain ⟨_, hD, hP, hM⟩ := Cluster.StatusUpdate_spec s w old hf hrv
      exact ⟨fun key => Cluster.GetDeployment_congr s _ hD key,
        fun ns labels => Cluster.ListPods_congr s _ hP ns labels, _, hM, rfl, rfl, rfl, rfl⟩
    · simp [Cluster.StatusUpdate, hf, hrv] at h'

/-- A write on the flaky store that succeeds went through to the in-memory
store and succeeded there. -/
theorem Flaky.write_ok (f : Flaky) (op : Cluster → Option Error × Cluster)
    (h : (f.write op).1 = none) :
    (op f.cluster).1 = none ∧ (f.write op).2.cluster = (op f.cluster).2 := by
  unfold Flaky.write at h ⊢
  cases hw : f.writeFault with
  | some e => simp [hw] at h
  | none =>
    simp only [hw] at h ⊢
    exact ⟨h, trivial⟩

/-- The flaky store keeps the store laws. -/
theorem Flaky.flaky_client_lawful : LawfulStore Flaky.client where
  getMemcached_key := fun f key m h => Cluster.client_keeps_laws.getMemcached_key f.cluster key m h
  getDeployment_key := fun f key d h => Cluster.client_keeps_laws.getDeployment_key f.cluster key d h
  create_ok := by
    intro f dep h
    obtain ⟨hok, hc⟩ := Flaky.write_ok f (fun c => c.Create dep) h
    obtain ⟨hM, d, hD, hR⟩ := Cluster.client_keeps_laws.create_ok f.cluster dep hok
    refine ⟨fun key => ?_, d, ?_, hR⟩
    · show Cluster.GetMemcached (f.write (fun c => c.Create dep)).2.cluster key = _
      rw [hc]
      exact hM key
    · show Cluster.GetDeployment (f.write (fun c => c.Create dep)).2.cluster _ = _
      rw [hc]
      exact hD
  update_ok := by
    intro f dep h
    obtain ⟨hok, hc⟩ := Flaky.write_ok f (fun c => c.Update dep) h
    obtain ⟨hM, d, hD, hR⟩ := Cluster.client_keeps_laws.update_ok f.cluster dep hok
    refine ⟨fun key => ?_, d, ?_, hR⟩
    · show Cluster.GetMemcached (f.write (fun c => c.Update dep)).2.cluster key = _
      rw [hc]
      exact hM key
    · show Cluster.GetDeployment (f.write (fun c => c.Update dep)).2.cluster _ = _
      rw [hc]
      exact hD
  statusUpdate_ok := by
    intro f w old h hold
    obtain ⟨hok, hc⟩ := Flaky.write_ok f (fun c => c.StatusUpdate w) h
    obtain ⟨hD, hL, m, hM, hrest⟩ := Cluster.client_keeps_laws.statusUpdate_ok f.cluster w old hok hold
    refine ⟨fun key => ?_, fun ns labels => ?_, m, ?_, hrest⟩
    · show Cluster.GetDeployment (f.write (fun c => c.StatusUpdate w)).2.cluster key = _
      rw [hc]
      exact hD key
    · show Cluster.ListPods (f.write (fun c => c.StatusUpdate w)).2.cluster ns labels = _
      rw [hc]
      exact hL ns labels
    · show Cluster.GetMemcached (f.write (fun c => c.StatusUpdate w)).2.cluster _ = _
      rw [hc]
      exact hM

/-- C6, as the code has it: over any store that keeps the store laws, when
two passes for one identity run one after the other with nothing else
touching the store and the mutating call of the first pass, if it issued one,
succeeded, every mutating call of the second pass is a status update, and the
second pass issues one only if the first pass created or updated the
`Deployment`.  So a second pass after a first pass that issued no mutating
call, or a status update that succeeded, issues no mutating call. -/
theorem Reconcile_second_pass {σ : Type} (r : MemcachedReconciler σ)
    (hlaw : LawfulStore r.toClient) (req : NamespacedName) (s : σ)
    (hok : ∀ c₁ ∈ (Reconcile r req s).calls, c₁.isMutating = true →
      (Reconcile r req s).err = none)
    (c : Call) (hc : c ∈ (Reconcile r req (Reconcile r req s).store).calls)
    (hm : c.isMutating = true) :
    (∃ w, c = Call.statusUpdate w) ∧
      ∃ c₁ ∈ (Reconcile r req s).calls, (∃ d, c₁ = Call.create d) ∨ (∃ d, c₁ = Call.update d) := by
  rcases Reconcile_cases r req s with ⟨e, hget, hR⟩ | ⟨m, hget, hcase⟩
  · exact (Reconcile_repeat_of_unchanged _ req s (by rw [hR])
      (by rw [hR]; simp [Call.isMutating]) c hc hm).elim
  · rcases hcase with ⟨e, hdep, hnf, hR⟩ | ⟨e, e', hdep, hnf, hb, hR⟩ |
      ⟨e, dep, hdep, hnf, hb, hR⟩ | ⟨found, dep, hdep, hne, hd, hR⟩ |
      ⟨found, e, hdep, heq, hl, hR⟩ | ⟨found, pods, hdep, heq, hl, hde, hR⟩ |
      ⟨found, pods, m', hdep, heq, hl, hde, hm', hR⟩
    · exact (Reconcile_repeat_of_unchanged _ req s (by rw [hR])
        (by rw [hR]; simp [Call.isMutating]) c hc hm).elim
    · exact (Reconcile_repeat_of_unchanged _ req s (by rw [hR])
        (by rw [hR]; simp [Call.isMutating]) c hc hm).elim
    · -- the first pass created the Deployment, and the create succeeded
      have hsucc : (r.Create s dep).1 = none := by
        have := hok (Call.create dep) (by rw [hR]; simp) rfl
        rw [hR] at this
        exact this
      obtain ⟨hn, hns, hspec, _⟩ := deploymentForMemcached_ok _ m dep hb
      obtain ⟨hM, d, hD, hrep⟩ := hlaw.create_ok s dep hsucc
      rw [hns, hn] at hD
      have hstore : (Reconcile r req s).store = (r.Create s dep).2 := by
        rw [hR]
      rw [hstore] at hc
      refine ⟨Reconcile_settled_child r req _ m d ((hM req).trans hget) hD ?_ c hc hm,
        Call.create dep, by rw [hR]; simp, Or.inl ⟨dep, rfl⟩⟩
      rw [hrep, hspec]
      rfl
    · -- the first pass updated the Deployment, and the update succeeded
      have hsucc : (r.Update s dep).1 = none := by
        have := hok (Call.update dep) (by rw [hR]; simp) rfl
        rw [hR] at this
        exact this
      obtain ⟨hfns, hfn⟩ := hlaw.getDeployment_key s _ found hdep
      have hdns : dep.Namespace = m.Namespace := by
        rw [hd]
        exact hfns
      have hdn : dep.Name = m.Name := by
        rw [hd]
        exact hfn
      obtain ⟨hM, d, hD, hrep⟩ := hlaw.update_ok s dep hsucc
      rw [hdns, hdn] at hD
      have hstore : (Reconcile r req s).store = (r.Update s dep).2 := by
        rw [hR]
      rw [hstore] at hc
      refine ⟨Reconcile_settled_child r req _ m d ((hM req).trans hget) hD ?_ c hc hm,
        Call.update dep, by rw [hR]; simp, Or.inr ⟨dep, rfl⟩⟩
      rw [hrep, hd]
    · exact (Reconcile_repeat_of_unchanged _ req s (by rw [hR])
        (by rw [hR]; simp [Call.isMutating]) c hc hm).elim
    · exact (Reconcile_repeat_of_unchanged _ req s (by rw [hR])
        (by rw [hR]; simp [Call.isMutating]) c hc hm).elim
    · -- the first pass updated the status: the second pass finds it up to date
      exfalso
      have hsucc : (r.StatusUpdate s m').1 = none := by
        have := hok (Call.statusUpdate m') (by rw [hR]; simp) rfl
        rw [hR] at this
        exact this
      obtain ⟨hmns, hmn⟩ := hlaw.getMemcached_key s req m hget
      have hkey : (⟨m'.Namespace, m'.Name⟩ : NamespacedName) = req := by
        rw [hm']
        cases req
        simp only at hmns hmn
        simp [hmns, hmn]
      have hold : r.GetMemcached s ⟨m'.Namespace, m'.Name⟩ = Except.ok m := by
        rw [hkey]
        exact hget
      obtain ⟨hD, hL, m₂, hM, hns₂, hn₂, hsp₂, hst₂⟩ := hlaw.statusUpdate_ok s m' m hsucc hold
      rw [hkey] at hM
      have hstore : (Reconcile r req s).store = (r.StatusUpdate s m').2 := by
        rw [hR]
      rw [hstore] at hc
      have hdep₂ : r.GetDeployment (r.StatusUpdate s m').2 ⟨m₂.Namespace, m₂.Name⟩ =
          Except.ok found := by
        rw [hns₂, hn₂]
        exact (hD _).trans hdep
      have hl₂ : r.List (r.StatusUpdate s m').2 m₂.Namespace (labelsForMemcached m₂.Name) =
          Except.ok pods := by
        rw [hns₂, hn₂]
        exact (hL _ _).trans hl
      have heq₂ : found.Spec.Replicas = some m₂.Spec.Size := by
        rw [hsp₂]
        exact heq
      have hsame : sort.Strings m₂.Status.Nodes = sort.Strings (getPodNames pods) := by
        rw [hst₂, hm']
        exact sort_Strings_idem _
      rw [Reconcile_of_settled r req _ m₂ found pods hM hdep₂ heq₂ hl₂ hsame] at hc
      simp only [List.mem_cons, List.mem_singleton, List.not_mem_nil, or_false] at hc
      rcases hc with rfl | rfl | rfl <;> simp [Call.isMutating] at hm

/-- C6 as stated fails: on `driftCluster` both passes succeed, nothing else
touches the store, and the second pass issues a status update. -/
theorem Reconcile_second_pass_status_update :
    (Reconcile (clusterReconciler registeredScheme) sampleKey driftCluster).err = none ∧
      (Reconcile (clusterReconciler registeredScheme) sampleKey
        (Reconcile (clusterReconciler registeredScheme) sampleKey driftCluster).store).err = none ∧
      (Reconcile (clusterReconciler registeredScheme) sampleKey
        (Reconcile (clusterReconciler registeredScheme) sampleKey driftCluster).store).calls.filter
          Call.isMutating =
        [Call.statusUpdate (sampleMemcached 3 (Slice.mk ["a"]))] := by
  decide

/-- The premise on the first pass is needed: on a store that refuses writes
the update of the first pass fails, and the second pass issues the same
update again. -/
theorem Reconcile_second_pass_repeats_failed_update :
    (Reconcile (flakyReconciler registeredScheme) sampleKey
        { cluster := driftCluster, writeFault := some (errConflict "sample") }).err =
        some (errConflict "sample") ∧
      (Reconcile (flakyReconciler registeredScheme) sampleKey
        (Reconcile (flakyReconciler registeredScheme) sampleKey
          { cluster := driftCluster, writeFault := some (errConflict "sample") }).store).calls.filter
          Call.isMutating =
        [Call.update (sampleDeployment (some 3))] := by
  decide

/-- Witness of C6 as amended: on the flaky store with no fault set, the
status update of the second pass on `driftCluster` follows a first pass whose
update of the `Deployment` succeeded. -/
theorem Reconcile_second_pass_witness :
    (∀ c₁ ∈ (Reconcile (flakyReconciler registeredScheme) sampleKey
        { cluster := driftCluster }).calls, c₁.isMutating = true →
        (Reconcile (flakyReconciler registeredScheme) sampleKey
          { cluster := driftCluster }).err = none) ∧
      Call.statusUpdate (sampleMemcached 3 (Slice.mk ["a"])) ∈
        (Reconcile (flakyReconciler registeredScheme) sampleKey
          (Reconcile (flakyReconciler registeredScheme) sampleKey
            { cluster := driftCluster }).store).calls ∧
      ((∃ w, Call.statusUpdate (sampleMemcached 3 (Slice.mk ["a"])) = Call.statusUpdate w) ∧
        ∃ c₁ ∈ (Reconcile (flakyReconciler registeredScheme) sampleKey
            { cluster := driftCluster }).calls,
          (∃ d, c₁ = Call.create d) ∨ (∃ d, c₁ = Call.update d)) :=
  ⟨fun _ _ _ => by decide, by decide,
    Reconcile_second_pass (flakyReconciler registeredScheme) Flaky.flaky_client_lawful sampleKey
      { cluster := driftCluster } (fun _ _ _ => by decide)
      (Call.statusUpdate (sampleMemcached 3 (Slice.mk ["a"]))) (by decide) rfl⟩

/-! ## The built workload -/

/-- C11: two resources that agree on name, namespace and `Spec.Size`, whatever
their status and other metadata, are given `Deployment`s with the same
selector labels and the same `Replicas` by any two successful builds. -/
theorem deploymentForMemcached_deterministic {σ τ : Type} (r₁ : MemcachedReconciler σ)
    (r₂ : MemcachedReconciler τ) (m₁ m₂ : Memcached) (d₁ d₂ : Deployment)
    (hname : m₁.Name = m₂.Name) (_hns : m₁.Namespace = m₂.Namespace)
    (hsize : m₁.Spec.Size = m₂.Spec.Size)
    (h₁ : deploymentForMemcached r₁ m₁ = Except.ok d₁)
    (h₂ : deploymentForMemcached r₂ m₂ = Except.ok d₂) :
    d₁.Spec.Selector = d₂.Spec.Selector ∧ d₁.Spec.Replicas = d₂.Spec.Replicas := by
  rw [(deploymentForMemcached_ok r₁ m₁ d₁ h₁).2.2.1, (deploymentForMemcached_ok r₂ m₂ d₂ h₂).2.2.1]
  simp [deploymentForMemcached.dep, hname, hsize]

/-- Witness of C11: `default/sample` of size 3 with two different statuses,
UIDs and version tokens, built under the same scheme. -/
theorem deploymentForMemcached_deterministic_witness :
    (sampleBuilt 3).Spec.Selector =
        ({ sampleBuilt 3 with
            OwnerReferences :=
              [{ APIVersion := "cache.example.com/v1alpha1", Kind := "Memcached", Name := "sample"
                 UID := "uid-9", Controller := some true, BlockOwnerDeletion := some true }] } :
          Deployment).Spec.Selector ∧
      (sampleBuilt 3).Spec.Replicas =
        ({ sampleBuilt 3 with
            OwnerReferences :=
              [{ APIVersion := "cache.example.com/v1alpha1", Kind := "Memcached", Name := "sample"
                 UID := "uid-9", Controller := some true, BlockOwnerDeletion := some true }] } :
          Deployment).Spec.Replicas :=
  deploymentForMemcached_deterministic (clusterReconciler registeredScheme)
    (clusterReconciler registeredScheme) (sampleMemcached 3 Slice.nil)
    { sampleMemcached 3 (Slice.mk ["a", "b"]) with UID := "uid-9", ResourceVersion := 1 }
    (sampleBuilt 3) _ rfl rfl rfl rfl rfl

/-- C12: `labelsForMemcached name` has exactly the two keys `app`, with value
`memcached`, and `memcached_cr`, with value `name`; for two different names
the two label maps differ and no label map matches both. -/
theorem labelsForMemcached_identifies (name n₁ n₂ : String) (labels : List (String × String))
    (hne : n₁ ≠ n₂) :
    labelsForMemcached name = [("app", "memcached"), ("memcached_cr", name)] ∧
      (labelsForMemcached name).map Prod.fst = ["app", "memcached_cr"] ∧
      (labelsForMemcached name).lookup "app" = some "memcached" ∧
      (labelsForMemcached name).lookup "memcached_cr" = some name ∧
      labelsForMemcached n₁ ≠ labelsForMemcached n₂ ∧
      ¬(matchesLabels (labelsForMemcached n₁) labels = true ∧
        matchesLabels (labelsForMemcached n₂) labels = true) := by
  refine ⟨rfl, rfl, rfl, ?_, ?_, ?_⟩
  · simp [labelsForMemcached, List.lookup]
  · simp [labelsForMemcached, hne]
  · rintro ⟨h₁, h₂⟩
    simp [matchesLabels, labelsForMemcached] at h₁ h₂
    rw [h₁.2] at h₂
    exact hne (Option.some.inj h₂.2)

/-- Witness of C12: the names `sample` and `other`, against the labels of a
pod of `sample`. -/
theorem labelsForMemcached_identifies_witness :
    ("sample" : String) ≠ "other" ∧
      labelsForMemcached "sample" ≠ labelsForMemcached "other" ∧
      ¬(matchesLabels (labelsForMemcached "sample") (samplePod "a").Labels = true ∧
        matchesLabels (labelsForMemcached "other") (samplePod "a").Labels = true) :=
  ⟨by decide,
    (labelsForMemcached_identifies "sample" "sample" "other" (samplePod "a").Labels
      (by decide)).2.2.2.2⟩

/-- C13: the containers of the built pod template do not depend on the
resource: any two successful builds give the same pod spec, a single
container with image `memcached:1.6.39-alpine`, the fixed command, and the
one port 11211 named `memcached`. -/
theorem deploymentForMemcached_template_constant {σ τ : Type} (r₁ : MemcachedReconciler σ)
    (r₂ : MemcachedReconciler τ) (m₁ m₂ : Memcached) (d₁ d₂ : Deployment)
    (h₁ : deploymentForMemcached r₁ m₁ = Except.ok d₁)
    (h₂ : deploymentForMemcached r₂ m₂ = Except.ok d₂) :
    d₁.Spec.Template.Spec = d₂.Spec.Template.Spec ∧
      d₁.Spec.Template.Spec.Containers =
        [{ Image := "memcached:1.6.39-alpine"
           Name := "memcached"
           Command := ["memcached", "--memory-limit=64", "-o", "modern", "-v"]
           Ports := [{ ContainerPort := 11211, Name := "memcached" }] }] := by
  rw [(deploymentForMemcached_ok r₁ m₁ d₁ h₁).2.2.1, (deploymentForMemcached_ok r₂ m₂ d₂ h₂).2.2.1]
  exact ⟨rfl, rfl⟩

/-- Witness of C13: `default/sample` of size 3 against a resource of another
name, namespace, size and status. -/
theorem deploymentForMemcached_template_constant_witness :
    ∃ d₂ : Deployment,
      deploymentForMemcached (clusterReconciler registeredScheme)
          { Name := "other", Namespace := "prod", Spec := { Size := 5 }
            Status := { Nodes := Slice.mk ["x"] } } = Except.ok d₂ ∧
        (sampleBuilt 3).Spec.Template.Spec = d₂.Spec.Template.Spec :=
  ⟨_, rfl,
    (deploymentForMemcached_template_constant (clusterReconciler registeredScheme)
      (clusterReconciler registeredScheme) (sampleMemcached 3 Slice.nil)
      { Name := "other", Namespace := "prod", Spec := { Size := 5 }
        Status := { Nodes := Slice.mk ["x"] } } (sampleBuilt 3) _ rfl rfl).1⟩

/-! ## What a pass may touch -/

/-- A create leaves the stored `Memcached` objects as they were. -/
theorem Cluster.Create_Memcacheds (c : Cluster) (dep : Deployment) :
    (c.Create dep).2.Memcacheds = c.Memcacheds := by
  unfold Cluster.Create
  split <;> rfl

/-- An update of a `Deployment` leaves the stored `Memcached` objects as they
were. -/
theorem Cluster.Update_Memcacheds (c : Cluster) (dep : Deployment) :
    (c.Update dep).2.Memcacheds = c.Memcacheds := by
  unfold Cluster.Update
  split
  · rfl
  · split <;> rfl

/-- A status update leaves the identity and the spec of every stored
`Memcached` as they were. -/
theorem Cluster.StatusUpdate_specs (c : Cluster) (m : Memcached) :
    (c.StatusUpdate m).2.Memcacheds.map (fun x => (x.Namespace, x.Name, x.Spec)) =
      c.Memcacheds.map (fun x => (x.Namespace, x.Name, x.Spec)) := by
  unfold Cluster.StatusUpdate
  split
  · rfl
  · split
    · rfl
    · simp only [List.map_map]
      apply List.map_congr_left
      intro x _
      by_cases hx : hasKey ⟨m.Namespace, m.Name⟩ x.Namespace x.Name = true <;> simp [hx]

/-- C14: every mutating call of a pass is a create or an update of a
`Deployment`, or a status update whose object agrees with the fetched
`Memcached` in type and object metadata (name and namespace among them) and
in `Spec`, so differs from it in the member list at most; and on the
in-memory store a pass leaves the identity and the spec of every stored
`Memcached` as they were. -/
theorem Reconcile_primary_status_only {σ : Type} (r : MemcachedReconciler σ)
    (req : NamespacedName) (s : σ) (c : Call)
    (hc : c ∈ (Reconcile r req s).calls) (hm : c.isMutating = true) :
    ((∃ dep : Deployment, c = Call.create dep ∨ c = Call.update dep) ∨
      (∃ m w, r.GetMemcached s req = Except.ok m ∧ c = Call.statusUpdate w ∧
        w.toTypeMeta = m.toTypeMeta ∧ w.toObjectMeta = m.toObjectMeta ∧ w.Spec = m.Spec)) ∧
      ∀ (scheme : Scheme) (cl : Cluster),
        (Reconcile (clusterReconciler scheme) req cl).store.Memcacheds.map
            (fun x => (x.Namespace, x.Name, x.Spec)) =
          cl.Memcacheds.map (fun x => (x.Namespace, x.Name, x.Spec)) := by
  constructor
  · rcases Reconcile_cases r req s with ⟨e, _, hR⟩ | ⟨m, hget, hcase⟩
    · rw [hR] at hc
      simp only [List.mem_singleton] at hc
      subst hc
      simp [Call.isMutating] at hm
    · rcases hcase with ⟨e, _, _, hR⟩ | ⟨e, e', _, _, _, hR⟩ | ⟨e, dep, _, _, _, hR⟩ |
        ⟨found, dep, _, _, _, hR⟩ | ⟨found, e, _, _, _, hR⟩ | ⟨found, pods, _, _, _, _, hR⟩ |
        ⟨found, pods, m', _, _, _, _, hm', hR⟩
      · rw [hR] at hc
        simp only [List.mem_cons, List.mem_singleton, List.not_mem_nil, or_false] at hc
        rcases hc with rfl | rfl <;> simp [Call.isMutating] at hm
      · rw [hR] at hc
        simp only [List.mem_cons, List.mem_singleton, List.not_mem_nil, or_false] at hc
        rcases hc with rfl | rfl <;> simp [Call.isMutating] at hm
      · rw [hR] at hc
        simp only [List.mem_cons, List.mem_singleton, List.not_mem_nil, or_false] at hc
        rcases hc with rfl | rfl | rfl
        · simp [Call.isMutating] at hm
        · simp [Call.isMutating] at hm
        · exact Or.inl ⟨_, Or.inl rfl⟩
      · rw [hR] at hc
        simp only [List.mem_cons, List.mem_singleton, List.not_mem_nil, or_false] at hc
        rcases hc with rfl | rfl | rfl
        · simp [Call.isMutating] at hm
        · simp [Call.isMutating] at hm
        · exact Or.inl ⟨_, Or.inr rfl⟩
      · rw [hR] at hc
        simp only [List.mem_cons, List.mem_singleton, List.not_mem_nil, or_false] at hc
        rcases hc with rfl | rfl | rfl <;> simp [Call.isMutating] at hm
      · rw [hR] at hc
        simp only [List.mem_cons, List.mem_singleton, List.not_mem_nil, or_false] at hc
        rcases hc with rfl | rfl | rfl <;> simp [Call.isMutating] at hm
      · rw [hR] at hc
        simp only [List.mem_cons, List.mem_singleton, List.not_mem_nil, or_false] at hc
        rcases hc with rfl | rfl | rfl | rfl
        · simp [Call.isMutating] at hm
        · simp [Call.isMutating] at hm
        · simp [Call.isMutating] at hm
        · exact Or.inr ⟨m, m', hget, rfl, by rw [hm'], by rw [hm'], by rw [hm']⟩
  · intro scheme cl
    rcases Reconcile_cases (clusterReconciler scheme) req cl with ⟨e, _, hR⟩ | ⟨m, hget, hcase⟩
    · rw [hR]
    · rcases hcase with ⟨e, _, _, hR⟩ | ⟨e, e', _, _, _, hR⟩ | ⟨e, dep, _, _, _, hR⟩ |
        ⟨found, dep, _, _, _, hR⟩ | ⟨found, e, _, _, _, hR⟩ | ⟨found, pods, _, _, _, _, hR⟩ |
        ⟨found, pods, m', _, _, _, _, hm', hR⟩
      · rw [hR]
      · rw [hR]
      · rw [hR]
        show ((cl.Create dep).2.Memcacheds.map _) = _
        rw [Cluster.Create_Memcacheds]
      · rw [hR]
        show ((cl.Update dep).2.Memcacheds.map _) = _
        rw [Cluster.Update_Memcacheds]
      · rw [hR]
      · rw [hR]
      · rw [hR]
        exact Cluster.StatusUpdate_specs cl m'

/-- Witness of C14: the status update issued for pods c, a, b carries the
fetched `Memcached` with only the member list replaced. -/
theorem Reconcile_primary_status_only_witness :
    Call.statusUpdate (sampleMemcached 3 (Slice.mk ["a", "b", "c"])) ∈
        (Reconcile (clusterReconciler registeredScheme) sampleKey
          { Memcacheds := [sampleMemcached 3 Slice.nil]
            Deployments := [sampleDeployment (some 3)]
            Pods := [samplePod "c", samplePod "a", samplePod "b"] }).calls ∧
      ((∃ dep : Deployment,
          Call.statusUpdate (sampleMemcached 3 (Slice.mk ["a", "b", "c"])) = Call.create dep ∨
            Call.statusUpdate (sampleMemcached 3 (Slice.mk ["a", "b", "c"])) = Call.update dep) ∨
        (∃ m w,
          (clusterReconciler registeredScheme).GetMemcached
              { Memcacheds := [sampleMemcached 3 Slice.nil]
                Deployments := [sampleDeployment (some 3)]
                Pods := [samplePod "c", samplePod "a", samplePod "b"] } sampleKey = Except.ok m ∧
            Call.statusUpdate (sampleMemcached 3 (Slice.mk ["a", "b", "c"])) = Call.statusUpdate w ∧
            w.toTypeMeta = m.toTypeMeta ∧ w.toObjectMeta = m.toObjectMeta ∧ w.Spec = m.Spec)) :=
  ⟨by decide,
    (Reconcile_primary_status_only (clusterReconciler registeredScheme) sampleKey _
      (Call.statusUpdate (sampleMemcached 3 (Slice.mk ["a", "b", "c"]))) (by decide) rfl).1⟩

/-! ## The member query and the built selector -/

/-- C15: in a pass for the `Memcached` `m` that finds the `Deployment` at the
desired size, the third call is the pod list, scoped to the namespace of `m`
with the labels `labelsForMemcached m.Name`, and the pods that query returns
are the ones whose sorted names a status update of the pass writes; no pass
for `m` lists with another namespace or other labels.  The `Deployment` built
for `m` has the namespace of `m` and both its selector match-labels and its
pod-template labels equal to `labelsForMemcached m.Name`; so a stored pod in
the namespace of the built `Deployment` whose labels contain the template
labels (in particular a pod whose labels are the template labels) is returned
by that list query. -/
theorem Reconcile_list_matches_builder {σ : Type} (r : MemcachedReconciler σ)
    (req : NamespacedName) (s : σ) (m : Memcached) (dep : Deployment)
    (hget : r.GetMemcached s req = Except.ok m)
    (hbuild : deploymentForMemcached r m = Except.ok dep) :
    (∀ found, r.GetDeployment s ⟨m.Namespace, m.Name⟩ = Except.ok found →
        found.Spec.Replicas = some m.Spec.Size →
        (Reconcile r req s).calls.take 3 =
          [Call.getMemcached req, Call.getDeployment ⟨m.Namespace, m.Name⟩,
            Call.list m.Namespace (labelsForMemcached m.Name)]) ∧
      (∀ found pods, r.GetDeployment s ⟨m.Namespace, m.Name⟩ = Except.ok found →
        found.Spec.Replicas = some m.Spec.Size →
        r.List s m.Namespace (labelsForMemcached m.Name) = Except.ok pods →
        (Reconcile r req s).calls.filter Call.isMutating = [] ∨
          (Reconcile r req s).calls.filter Call.isMutating =
            [Call.statusUpdate
              { m with Status := { Nodes := sort.Strings (getPodNames pods) } }]) ∧
      (∀ ns labels, Call.list ns labels ∈ (Reconcile r req s).calls →
        ns = m.Namespace ∧ labels = labelsForMemcached m.Name) ∧
      dep.Namespace = m.Namespace ∧
      dep.Spec.Selector = some { MatchLabels := labelsForMemcached m.Name } ∧
      dep.Spec.Template.Labels = labelsForMemcached m.Name ∧
      matchesLabels dep.Spec.Template.Labels dep.Spec.Template.Labels = true ∧
      ∀ (c : Cluster) (pod : Pod), pod ∈ c.Pods → pod.Namespace = dep.Namespace →
        matchesLabels dep.Spec.Template.Labels pod.Labels = true →
        ∃ pods, c.ListPods m.Namespace (labelsForMemcached m.Name) = Except.ok pods ∧
          pod ∈ pods := by
  obtain ⟨_, hns, hspec, _⟩ := deploymentForMemcached_ok r m dep hbuild
  have hsel : dep.Spec.Selector = some { MatchLabels := labelsForMemcached m.Name } := by
    rw [hspec]
    rfl
  have htl : dep.Spec.Template.Labels = labelsForMemcached m.Name := by
    rw [hspec]
    rfl
  refine ⟨?_, ?_, ?_, hns, hsel, htl, ?_, ?_⟩
  · intro found hdep heq
    cases hl : r.List s m.Namespace (labelsForMemcached m.Name) with
    | error e => simp [Reconcile, hget, hdep, heq, hl]
    | ok pods =>
      rw [Reconcile_status_step r req s m found pods hget hdep heq hl]
      split <;> simp
  · intro found pods hdep heq hl
    rw [Reconcile_status_step r req s m found pods hget hdep heq hl]
    split <;> simp [Call.isMutating]
  · intro ns labels hc
    rcases Reconcile_cases r req s with ⟨e, hget', hR⟩ | ⟨m₀, hget', hcase⟩
    · rw [hget] at hget'
      cases hget'
    · rw [hget] at hget'
      injection hget' with hmm
      subst hmm
      rcases hcase with ⟨e, _, _, hR⟩ | ⟨e, e', _, _, _, hR⟩ | ⟨e, dep', _, _, _, hR⟩ |
        ⟨found, dep', _, _, _, hR⟩ | ⟨found, e, _, _, _, hR⟩ | ⟨found, pods, _, _, _, _, hR⟩ |
        ⟨found, pods, m', _, _, _, _, _, hR⟩ <;>
      · rw [hR] at hc
        simp at hc
        try exact hc
  · rw [htl]
    simp [matchesLabels, labelsForMemcached, List.lookup]
  · intro c pod hmem hpns hmatch
    refine ⟨_, rfl, ?_⟩
    rw [htl] at hmatch
    rw [hns] at hpns
    simp [List.mem_filter, hmem, hpns, hmatch]

/-- Witness of C15: with the `Deployment` of `default/sample` at the desired
size and the pod `a` running, the third call of the pass is the list query
with the labels of the built template, the pod `a` is returned by it, and the
status update of the pass writes its name. -/
theorem Reconcile_list_matches_builder_witness :
    (Reconcile (clusterReconciler registeredScheme) sampleKey
        { Memcacheds := [sampleMemcached 3 Slice.nil]
          Deployments := [sampleDeployment (some 3)]
          Pods := [samplePod "a"] }).calls.take 3 =
        [Call.getMemcached sampleKey, Call.getDeployment sampleKey,
          Call.list "default" (sampleBuilt 3).Spec.Template.Labels] ∧
      (sampleBuilt 3).Spec.Template.Labels = labelsForMemcached "sample" ∧
      (∃ pods,
        Cluster.ListPods
            { Memcacheds := [sampleMemcached 3 Slice.nil]
              Deployments := [sampleDeployment (some 3)]
              Pods := [samplePod "a"] }
            "default" (labelsForMemcached "sample") = Except.ok pods ∧
          samplePod "a" ∈ pods) ∧
      (Reconcile (clusterReconciler registeredScheme) sampleKey
        { Memcacheds := [sampleMemcached 3 Slice.nil]
          Deployments := [sampleDeployment (some 3)]
          Pods := [samplePod "a"] }).calls.filter Call.isMutating =
        [Call.statusUpdate (sampleMemcached 3 (Slice.mk ["a"]))] :=
  have h := Reconcile_list_matches_builder (clusterReconciler registeredScheme) sampleKey
    { Memcacheds := [sampleMemcached 3 Slice.nil], Deployments := [sampleDeployment (some 3)]
      Pods := [samplePod "a"] }
    (sampleMemcached 3 Slice.nil) (sampleBuilt 3) rfl rfl
  ⟨h.1 (sampleDeployment (some 3)) rfl rfl, h.2.2.2.2.2.1,
    h.2.2.2.2.2.2.2
      { Memcacheds := [sampleMemcached 3 Slice.nil], Deployments := [sampleDeployment (some 3)]
        Pods := [samplePod "a"] }
      (samplePod "a") (by decide) (by decide) (by decide),
    (h.2.1 (sampleDeployment (some 3)) [samplePod "a"] rfl rfl rfl).resolve_left (by decide)⟩

/-! ## Drift of an unset replica count, and the returned result -/

/-- C17: when the `Deployment` exists with `Replicas` unset, whatever
`Spec.Size` is, the pass issues the two fetches and then exactly one update
that sets `Replicas` to `Spec.Size`, with no pod list and no status update;
and in any pass a pod list or a status update is issued only when the
fetched `Deployment` has `Replicas` set and equal to `Spec.Size`. -/
theorem Reconcile_unset_replicas_updates {σ : Type} (r : MemcachedReconciler σ)
    (req : NamespacedName) (s : σ) (m : Memcached) (found : Deployment)
    (hget : r.GetMemcached s req = Except.ok m)
    (hdep : r.GetDeployment s { Namespace := m.Namespace, Name := m.Name } = Except.ok found)
    (hnil : found.Spec.Replicas = none) :
    (Reconcile r req s).calls =
        [Call.getMemcached req, Call.getDeployment { Namespace := m.Namespace, Name := m.Name },
          Call.update { found with Spec := { found.Spec with Replicas := some m.Spec.Size } }] ∧
      (∀ (s' : σ) (req' : NamespacedName) (c : Call), c ∈ (Reconcile r req' s').calls →
        ((∃ ns labels, c = Call.list ns labels) ∨ (∃ w, c = Call.statusUpdate w)) →
        ∃ m' found', r.GetMemcached s' req' = Except.ok m' ∧
          r.GetDeployment s' { Namespace := m'.Namespace, Name := m'.Name } = Except.ok found' ∧
          found'.Spec.Replicas = some m'.Spec.Size) := by
  constructor
  · rcases hu : r.Update s { found with Spec := { found.Spec with Replicas := some m.Spec.Size } }
      with ⟨_ | e, s₁⟩ <;>
      simp [Reconcile, hget, hdep, hnil, hu]
  · intro s' req' c hc hkind
    rcases Reconcile_cases r req' s' with ⟨e, _, hR⟩ | ⟨m', hget', hcase⟩
    · rw [hR] at hc
      simp only [List.mem_singleton] at hc
      subst hc
      rcases hkind with ⟨_, _, h⟩ | ⟨_, h⟩ <;> cases h
    · rcases hcase with ⟨e, _, _, hR⟩ | ⟨e, e', _, _, _, hR⟩ | ⟨e, dep, _, _, _, hR⟩ |
        ⟨found', dep, _, _, _, hR⟩ | ⟨found', e, hd, heq, _, hR⟩ |
        ⟨found', pods, hd, heq, _, _, hR⟩ | ⟨found', pods, w, hd, heq, _, _, _, hR⟩
      · rw [hR] at hc
        simp only [List.mem_cons, List.mem_singleton, List.not_mem_nil, or_false] at hc
        rcases hc with rfl | rfl <;> rcases hkind with ⟨_, _, h⟩ | ⟨_, h⟩ <;> cases h
      · rw [hR] at hc
        simp only [List.mem_cons, List.mem_singleton, List.not_mem_nil, or_false] at hc
        rcases hc with rfl | rfl <;> rcases hkind with ⟨_, _, h⟩ | ⟨_, h⟩ <;> cases h
      · rw [hR] at hc
        simp only [List.mem_cons, List.mem_singleton, List.not_mem_nil, or_false] at hc
        rcases hc with rfl | rfl | rfl <;> rcases hkind with ⟨_, _, h⟩ | ⟨_, h⟩ <;> cases h
      · rw [hR] at hc
        simp only [List.mem_cons, List.mem_singleton, List.not_mem_nil, or_false] at hc
        rcases hc with rfl | rfl | rfl <;> rcases hkind with ⟨_, _, h⟩ | ⟨_, h⟩ <;> cases h
      · exact ⟨m', found', hget', hd, heq⟩
      · exact ⟨m', found', hget', hd, heq⟩
      · exact ⟨m', found', hget', hd, heq⟩

/-- Witness of C17: a `Deployment` with `Replicas` unset against
`Spec.Size = 3`. -/
theorem Reconcile_unset_replicas_updates_witness :
    (sampleDeployment none).Spec.Replicas = none ∧
      (Reconcile (clusterReconciler registeredScheme) sampleKey
          { Memcacheds := [sampleMemcached 3 Slice.nil]
            Deployments := [sampleDeployment none]
            Pods := [samplePod "a"] }).calls =
        [Call.getMemcached sampleKey, Call.getDeployment sampleKey,
          Call.update (sampleDeployment (some 3))] :=
  ⟨rfl,
    (Reconcile_unset_replicas_updates (clusterReconciler registeredScheme) sampleKey
      { Memcacheds := [sampleMemcached 3 Slice.nil], Deployments := [sampleDeployment none]
        Pods := [samplePod "a"] }
      (sampleMemcached 3 Slice.nil) (sampleDeployment none) rfl rfl rfl).1⟩

/-- C18: on every path through `Reconcile`, whether it returns an error or
not, the returned result is the empty `ctrl.Result`: no requeue is asked for
and no delay is set. -/
theorem Reconcile_result_empty {σ : Type} (r : MemcachedReconciler σ) (req : NamespacedName)
    (s : σ) :
    (Reconcile r req s).result = {} ∧ (Reconcile r req s).result.Requeue = false ∧
      (Reconcile r req s).result.RequeueAfter = 0 := by
  rcases Reconcile_cases r req s with ⟨e, _, hR⟩ | ⟨m, hget, hcase⟩
  · rw [hR]
    exact ⟨rfl, rfl, rfl⟩
  · rcases hcase with ⟨e, _, _, hR⟩ | ⟨e, e', _, _, _, hR⟩ | ⟨e, dep, _, _, _, hR⟩ |
      ⟨found, dep, _, _, _, hR⟩ | ⟨found, e, _, _, _, hR⟩ | ⟨found, pods, _, _, _, _, hR⟩ |
      ⟨found, pods, m', _, _, _, _, _, hR⟩ <;>
    · rw [hR]
      exact ⟨rfl, rfl, rfl⟩

/-! ## Convergence on the in-memory store -/

/-- A failed fetch of a `Deployment` from the in-memory store is a not-found. -/
theorem Cluster.GetDeployment_error_notFound (c : Cluster) (key : NamespacedName) (e : Error)
    (h : c.GetDeployment key = Except.error e) : IsNotFound e = true := by
  unfold Cluster.GetDeployment at h
  split at h
  · cases h
  · injection h with h
    subst h
    rfl

/-- With the kind of `Memcached` registered in the scheme the builder
succeeds. -/
theorem deploymentForMemcached_of_registered {σ : Type} (r : MemcachedReconciler σ)
    (gvk : GroupVersionKind) (hs : r.Scheme.memcachedKind = Except.ok gvk) (m : Memcached) :
    ∃ dep, deploymentForMemcached r m = Except.ok dep := by
  rw [deploymentForMemcached_eq]
  unfold SetControllerReference
  rw [hs]
  exact ⟨_, rfl⟩

/-- One pass on the in-memory store with the kind registered and the
`Memcached` present: the pass returns no error and leaves the pods alone, and
either the `Deployment` was not at the desired size and now is, with the
`Memcached` as before, or the `Deployment` was at the desired size and the
stored status now equals, once sorted, the sorted pod names. -/
theorem Cluster.pass_spec (scheme : Scheme) (gvk : GroupVersionKind)
    (hs : scheme.memcachedKind = Except.ok gvk) (req : NamespacedName) (s : Cluster)
    (m : Memcached) (hget : s.GetMemcached req = Except.ok m) :
    (Reconcile (clusterReconciler scheme) req s).err = none ∧
      (Reconcile (clusterReconciler scheme) req s).store.Pods = s.Pods ∧
      (((∀ found, s.GetDeployment ⟨m.Namespace, m.Name⟩ = Except.ok found →
            found.Spec.Replicas ≠ some m.Spec.Size) ∧
          (Reconcile (clusterReconciler scheme) req s).store.GetMemcached req = Except.ok m ∧
          ∃ found₁,
            (Reconcile (clusterReconciler scheme) req s).store.GetDeployment
                ⟨m.Namespace, m.Name⟩ = Except.ok found₁ ∧
              found₁.Spec.Replicas = some m.Spec.Size) ∨
        (∃ found pods m₁,
          s.GetDeployment ⟨m.Namespace, m.Name⟩ = Except.ok found ∧
            found.Spec.Replicas = some m.Spec.Size ∧
            s.ListPods m.Namespace (labelsForMemcached m.Name) = Except.ok pods ∧
            (Reconcile (clusterReconciler scheme) req s).store.GetMemcached req = Except.ok m₁ ∧
            m₁.Spec = m.Spec ∧ m₁.Namespace = m.Namespace ∧ m₁.Name = m.Name ∧
            (Reconcile (clusterReconciler scheme) req s).store.GetDeployment
                ⟨m.Namespace, m.Name⟩ = Except.ok found ∧
            sort.Strings m₁.Status.Nodes = sort.Strings (getPodNames pods))) := by
  rcases Reconcile_cases (clusterReconciler scheme) req s with ⟨e, hget', hR⟩ | ⟨m₀, hget', hcase⟩
  · have : s.GetMemcached req = Except.error e := hget'
    rw [hget] at this
    cases this
  · have hmm : Except.ok m = Except.ok m₀ := hget.symm.trans hget'
    injection hmm with hmm
    subst hmm
    rcases hcase with ⟨e, hdep, hnf, hR⟩ | ⟨e, e', hdep, hnf, hb, hR⟩ |
      ⟨e, dep, hdep, hnf, hb, hR⟩ | ⟨found, dep, hdep, hne, hd, hR⟩ |
      ⟨found, e, hdep, heq, hl, hR⟩ | ⟨found, pods, hdep, heq, hl, hde, hR⟩ |
      ⟨found, pods, m', hdep, heq, hl, hde, hm', hR⟩
    · rw [Cluster.GetDeployment_error_notFound s _ e hdep] at hnf
      cases hnf
    · obtain ⟨dep, hok⟩ := deploymentForMemcached_of_registered (clusterReconciler scheme) gvk hs m
      rw [hok] at hb
      cases hb
    · -- create
      obtain ⟨hn, hns, hspec, _⟩ := deploymentForMemcached_ok _ m dep hb
      have hkey : (⟨m.Namespace, m.Name⟩ : NamespacedName) = ⟨dep.Namespace, dep.Name⟩ := by
        rw [hn, hns]
      have hnone := Cluster.GetDeployment_error s _ e hdep
      rw [hkey] at hnone
      obtain ⟨hE, hM, hP, hD⟩ := Cluster.Create_spec s dep hnone
      have hstore : (Reconcile (clusterReconciler scheme) req s).store = (s.Create dep).2 := by
        rw [hR]
        rfl
      have herr : (Reconcile (clusterReconciler scheme) req s).err = (s.Create dep).1 := by
        rw [hR]
        rfl
      rw [hstore, herr]
      rw [← hkey] at hD
      refine ⟨hE, hP, Or.inl ⟨?_, (Cluster.GetMemcached_congr s _ hM req).trans hget, _, hD, ?_⟩⟩
      · intro found hf
        have : s.GetDeployment ⟨m.Namespace, m.Name⟩ = Except.error e := hdep
        rw [hf] at this
        cases this
      · show dep.Spec.Replicas = _
        rw [hspec]
        rfl
    · -- update
      obtain ⟨hfind, hfns, hfn⟩ := Cluster.GetDeployment_ok s _ found hdep
      have hkey : (⟨m.Namespace, m.Name⟩ : NamespacedName) = ⟨dep.Namespace, dep.Name⟩ := by
        rw [hd]
        simp only at hfns hfn
        simp [hfns, hfn]
      rw [hkey] at hfind
      obtain ⟨hE, hM, hP, hD⟩ := Cluster.Update_spec s dep found hfind (by rw [hd])
      have hstore : (Reconcile (clusterReconciler scheme) req s).store = (s.Update dep).2 := by
        rw [hR]
        rfl
      have herr : (Reconcile (clusterReconciler scheme) req s).err = (s.Update dep).1 := by
        rw [hR]
        rfl
      rw [hstore, herr]
      rw [← hkey] at hD
      refine ⟨hE, hP, Or.inl ⟨?_, (Cluster.GetMemcached_congr s _ hM req).trans hget, _, hD, ?_⟩⟩
      · intro found' hf
        have : s.GetDeployment ⟨m.Namespace, m.Name⟩ = Except.ok found := hdep
        rw [hf] at this
        injection this with this
        rw [this]
        exact hne
      · show dep.Spec.Replicas = _
        rw [hd]
    · have : s.ListPods m.Namespace (labelsForMemcached m.Name) = Except.error e := hl
      cases this
    · -- nothing to do
      have hsame : sort.Strings (getPodNames pods) = sort.Strings m.Status.Nodes := by
        simpa [reflect.DeepEqual] using hde
      rw [hR]
      exact ⟨rfl, rfl, Or.inr ⟨found, pods, m, hdep, heq, hl, hget, rfl, rfl, rfl, hdep,
        hsame.symm⟩⟩
    · -- status update
      obtain ⟨hfind, hmns, hmn⟩ := Cluster.GetMemcached_ok s req m hget
      have hkey : req = ⟨m'.Namespace, m'.Name⟩ := by
        rw [hm']
        cases req
        simp only at hmns hmn
        simp [hmns, hmn]
      rw [hkey] at hfind
      obtain ⟨hE, hD, hP, hM⟩ := Cluster.StatusUpdate_spec s m' m hfind (by rw [hm'])
      rw [← hkey] at hM
      have hstore : (Reconcile (clusterReconciler scheme) req s).store =
          (s.StatusUpdate m').2 := by
        rw [hR]
        rfl
      have herr : (Reconcile (clusterReconciler scheme) req s).err = (s.StatusUpdate m').1 := by
        rw [hR]
        rfl
      rw [hstore, herr]
      refine ⟨hE, hP, Or.inr ⟨found, pods, _, hdep, heq, hl, hM, rfl, rfl, rfl,
        (Cluster.GetDeployment_congr s _ hD _).trans hdep, ?_⟩⟩
      show sort.Strings m'.Status.Nodes = _
      rw [hm']
      exact sort_Strings_idem _

/-- Passes on a store that a pass leaves as it was leave it as it was. -/
theorem storeAfter_of_fixed {σ : Type} (r : MemcachedReconciler σ) (req : NamespacedName) (s : σ)
    (h : (Reconcile r req s).store = s) (n : Nat) : storeAfter r req n s = s := by
  induction n with
  | zero => rfl
  | succ n ih =>
    show storeAfter r req n (Reconcile r req s).store = s
    rw [h, ih]

/-- After two passes on the in-memory store, with the kind registered and the
`Memcached` present, the `Deployment` is at the desired size and the stored
status equals, once sorted, the sorted names of the pods; both passes return
no error. -/
theorem Cluster.two_passes_settle (scheme : Scheme) (gvk : GroupVersionKind)
    (hs : scheme.memcachedKind = Except.ok gvk) (req : NamespacedName) (s : Cluster)
    (m : Memcached) (hget : s.GetMemcached req = Except.ok m) :
    (Reconcile (clusterReconciler scheme) req s).err = none ∧
      (Reconcile (clusterReconciler scheme) req
        (Reconcile (clusterReconciler scheme) req s).store).err = none ∧
      ∃ m₂ found pods,
        (storeAfter (clusterReconciler scheme) req 2 s).GetMemcached req = Except.ok m₂ ∧
          m₂.Spec = m.Spec ∧ m₂.Namespace = m.Namespace ∧ m₂.Name = m.Name ∧
          (storeAfter (clusterReconciler scheme) req 2 s).GetDeployment
              ⟨m.Namespace, m.Name⟩ = Except.ok found ∧
          found.Spec.Replicas = some m.Spec.Size ∧
          (storeAfter (clusterReconciler scheme) req 2 s).ListPods m.Namespace
              (labelsForMemcached m.Name) = Except.ok pods ∧
          sort.Strings m₂.Status.Nodes = sort.Strings (getPodNames pods) := by
  obtain ⟨herr₁, _, hfirst⟩ := Cluster.pass_spec scheme gvk hs req s m hget
  -- after the first pass the Deployment is at the desired size
  have hone : ∃ m₁ found₁,
      (Reconcile (clusterReconciler scheme) req s).store.GetMemcached req = Except.ok m₁ ∧
        m₁.Spec = m.Spec ∧ m₁.Namespace = m.Namespace ∧ m₁.Name = m.Name ∧
        (Reconcile (clusterReconciler scheme) req s).store.GetDeployment
            ⟨m.Namespace, m.Name⟩ = Except.ok found₁ ∧
        found₁.Spec.Replicas = some m.Spec.Size := by
    rcases hfirst with ⟨_, hg, found₁, hd, hr⟩ | ⟨found, pods, m₁, _, hr, _, hg, h1, h2, h3, hd, _⟩
    · exact ⟨m, found₁, hg, rfl, rfl, rfl, hd, hr⟩
    · exact ⟨m₁, found, hg, h1, h2, h3, hd, hr⟩
  obtain ⟨m₁, found₁, hg₁, hsp₁, hns₁, hn₁, hd₁, hr₁⟩ := hone
  obtain ⟨herr₂, hpods₂, hsecond⟩ :=
    Cluster.pass_spec scheme gvk hs req (Reconcile (clusterReconciler scheme) req s).store m₁ hg₁
  rw [hns₁, hn₁, hsp₁] at hsecond
  refine ⟨herr₁, herr₂, ?_⟩
  rcases hsecond with ⟨hno, _, _⟩ | ⟨found, pods, m₂, _, hr, hl, hg, h1, h2, h3, hd, hsame⟩
  · exact absurd hr₁ (hno found₁ hd₁)
  · refine ⟨m₂, found, pods, hg, h1, h2, h3, hd, hr, ?_, hsame⟩
    exact (Cluster.ListPods_congr _ _ hpods₂ _ _).trans hl

/-- C16, as the code has it: on the in-memory store, with the kind registered
(so the builder succeeds) and the `Memcached` present, every pass returns no
error, and the third and every later pass issues no mutating call and leaves
the store as it is; in that store the `Deployment` exists with `Replicas`
equal to `Spec.Size`, and the stored status equals the sorted pod names once
it is sorted itself, so it lists the pod names in some order. -/
theorem Reconcile_converges (scheme : Scheme) (gvk : GroupVersionKind)
    (hs : scheme.memcachedKind = Except.ok gvk) (req : NamespacedName) (s : Cluster)
    (m : Memcached) (hget : s.GetMemcached req = Except.ok m) (n : Nat) (hn : 2 ≤ n) :
    (Reconcile (clusterReconciler scheme) req s).err = none ∧
      (Reconcile (clusterReconciler scheme) req
        (storeAfter (clusterReconciler scheme) req 1 s)).err = none ∧
      (Reconcile (clusterReconciler scheme) req
        (storeAfter (clusterReconciler scheme) req n s)).err = none ∧
      (Reconcile (clusterReconciler scheme) req
        (storeAfter (clusterReconciler scheme) req n s)).calls.filter Call.isMutating = [] ∧
      (Reconcile (clusterReconciler scheme) req
        (storeAfter (clusterReconciler scheme) req n s)).store =
          storeAfter (clusterReconciler scheme) req n s ∧
      ∃ mₙ found pods,
        (storeAfter (clusterReconciler scheme) req n s).GetMemcached req = Except.ok mₙ ∧
          mₙ.Spec = m.Spec ∧
          (storeAfter (clusterReconciler scheme) req n s).GetDeployment
              ⟨m.Namespace, m.Name⟩ = Except.ok found ∧
          found.Spec.Replicas = some m.Spec.Size ∧
          (storeAfter (clusterReconciler scheme) req n s).ListPods m.Namespace
              (labelsForMemcached m.Name) = Except.ok pods ∧
          sort.Strings mₙ.Status.Nodes = sort.Strings (getPodNames pods) ∧
          mₙ.Status.Nodes.toList.Perm (pods.map (fun pod => pod.Name)) := by
  obtain ⟨herr₁, herr₂, m₂, found, pods, hg, hsp, hns, hnm, hd, hr, hl, hsame⟩ :=
    Cluster.two_passes_settle scheme gvk hs req s m hget
  have hfix := Reconcile_of_settled (clusterReconciler scheme) req
    (storeAfter (clusterReconciler scheme) req 2 s) m₂ found pods hg
    (by rw [hns, hnm]; exact hd) (by rw [hsp]; exact hr) (by rw [hns, hnm]; exact hl) hsame
  obtain ⟨k, rfl⟩ : ∃ k, n = k + 2 := ⟨n - 2, by omega⟩
  have hk : storeAfter (clusterReconciler scheme) req (k + 2) s =
      storeAfter (clusterReconciler scheme) req 2 s := by
    have hstay : (Reconcile (clusterReconciler scheme) req
        (storeAfter (clusterReconciler scheme) req 2 s)).store =
        storeAfter (clusterReconciler scheme) req 2 s := by
      rw [hfix]
    exact storeAfter_of_fixed _ req _ hstay k
  rw [hk]
  refine ⟨herr₁, herr₂, by rw [hfix], by rw [hfix]; simp [Call.isMutating], by rw [hfix],
    m₂, found, pods, hg, hsp, hd, hr, hl, hsame, ?_⟩
  have h₁ := (sort_Strings_toList m₂.Status.Nodes).2
  have h₂ := (sort_Strings_toList (getPodNames pods)).2
  rw [hsame] at h₁
  rw [getPodNames_toList] at h₂
  exact h₁.symm.trans h₂

/-- C16 as stated fails: on `permutedCluster` no pass issues a mutating call
and the store stays as it is, with the `Deployment` at the desired size and a
stored status b, a that is not the sorted list a, b of the pod names. -/
theorem Reconcile_settled_status_unsorted :
    (Reconcile (clusterReconciler registeredScheme) sampleKey permutedCluster).calls.filter
          Call.isMutating = [] ∧
      (Reconcile (clusterReconciler registeredScheme) sampleKey permutedCluster).err = none ∧
      storeAfter (clusterReconciler registeredScheme) sampleKey 3 permutedCluster =
        permutedCluster ∧
      permutedCluster.Memcacheds = [sampleMemcached 3 (Slice.mk ["b", "a"])] ∧
      sort.Strings (getPodNames permutedCluster.Pods) = Slice.mk ["a", "b"] ∧
      (sampleMemcached 3 (Slice.mk ["b", "a"])).Status.Nodes ≠
        sort.Strings (getPodNames permutedCluster.Pods) := by
  decide

/-- Witness of C16 as amended: `driftCluster` after two passes. -/
theorem Reconcile_converges_witness :
    (2 : Nat) ≤ 2 ∧
      (Reconcile (clusterReconciler registeredScheme) sampleKey
        (storeAfter (clusterReconciler registeredScheme) sampleKey 2 driftCluster)).calls.filter
          Call.isMutating = [] ∧
      (storeAfter (clusterReconciler registeredScheme) sampleKey 2 driftCluster).Memcacheds =
        [{ sampleMemcached 3 (Slice.mk ["a"]) with ResourceVersion := 8 }] :=
  ⟨by decide,
    (Reconcile_converges registeredScheme _ rfl sampleKey driftCluster
      (sampleMemcached 3 Slice.nil) rfl 2 (by decide)).2.2.2.1,
    by decide⟩

end Operator
